import Mathlib

/-!
# Verification of the Shotlin web-analytics engine

Shallow embedding of `src/modules/analytics/analytics.controller.ts`
(ingestion: `collectHandler`, `heartbeatHandler`; aggregation:
`getStatsHandler`, `getTimeSeriesHandler`, `getTopPagesHandler`, and the
helpers `categorizeTrafficSource`, `extractReferrerDomain`).

Modelling conventions:
* timestamps are integer milliseconds since the epoch (`Int`);
* JS strings are `String`, `null`/`undefined` is `Option`;
* the relational store (Prisma) is a pair of in-memory row lists;
* JS numbers that hold integral data are `Int`/`Nat`; the floating-point
  arithmetic of the aggregation formulas (means, percentages) is modelled
  over `ℚ`, with `Math.round x` as `⌊x + 1/2⌋` (which is exactly what
  `Math.round` computes, halves going towards `+∞`);
* JS truthiness tests on strings/numbers (`if (s)`, `x || d`) are spelled
  out (`≠ ""`, `≠ 0`, `Option.getD`).
-/

namespace Analytics

/-! ## JavaScript string primitives -/

/-- Model of `String.prototype.toLowerCase` (ASCII case folding): maps
`Char.toLower` over the characters. -/
def toLowerStr (s : String) : String := ⟨s.data.map Char.toLower⟩

/-- Model of `String.prototype.includes` on character lists:
`hasInfixChars hay needle` is `true` iff `needle` occurs contiguously in
`hay`. -/
def hasInfixChars (hay needle : List Char) : Bool :=
  needle.isPrefixOf hay ||
    match hay with
    | [] => false
    | _ :: t => hasInfixChars t needle

/-- Model of `String.prototype.includes`. -/
def strIncludes (s sub : String) : Bool := hasInfixChars s.data sub.data

/-- JS truthiness of an optional string: `null`, `undefined` and `""` are
falsy. -/
def truthyStr : Option String → Option String
  | some s => if s = "" then none else some s
  | none => none

/-- JS truthiness of an optional integral number: `null`, `undefined` and
`0` are falsy. -/
def truthyInt : Option Int → Option Int
  | some n => if n = 0 then none else some n
  | none => none

/-! ## Traffic-source categorization (`categorizeTrafficSource`, lines 14–28)

The source function has two halves: the UTM branch (entered when
`utmSource` is truthy) and the referrer-domain fallback.  They are embedded
as two definitions composed by `categorizeTrafficSource`. -/

/-- The UTM-source branch of `categorizeTrafficSource`: exact membership
tests against the search-engine and social lists, then substring tests for
email and paid ads, else `"Campaign"`. -/
def utmCategory (u : String) : String :=
  let s := toLowerStr u
  if ["google", "bing", "duckduckgo", "yahoo", "baidu"].contains s then "Organic Search"
  else if ["facebook", "instagram", "linkedin", "twitter", "tiktok", "reddit", "x"].contains s then "Social Media"
  else if strIncludes s "email" || strIncludes s "newsletter" then "Email"
  else if strIncludes s "cpc" || strIncludes s "ads" || strIncludes s "paid" then "Paid Ads"
  else "Campaign"

/-- The referrer-domain fallback of `categorizeTrafficSource`: substring
tests against the search-engine and social domain lists, `"Direct"` when no
(truthy) referrer domain exists, else `"Referral"`. -/
def referrerCategory (referrerDomain : Option String) : String :=
  match truthyStr referrerDomain with
  | none => "Direct"
  | some rd =>
    let d := toLowerStr rd
    if ["google.com", "bing.com", "duckduckgo.com", "yahoo.com", "baidu.com", "yandex.com"].any (fun s => strIncludes d s) then "Organic Search"
    else if ["facebook.com", "instagram.com", "linkedin.com", "twitter.com", "x.com", "tiktok.com", "reddit.com", "t.co"].any (fun s => strIncludes d s) then "Social Media"
    else "Referral"

/-- `categorizeTrafficSource(referrerDomain, utmSource)` from the source:
a truthy UTM source is categorized by `utmCategory` (the referrer domain is
not consulted); otherwise the referrer-domain fallback applies. -/
def categorizeTrafficSource (referrerDomain utmSource : Option String) : String :=
  match truthyStr utmSource with
  | some u => utmCategory u
  | none => referrerCategory referrerDomain

/-! ## Data model

Field names follow the Prisma row shapes used by the controller.  The
Prisma schema itself is not part of the repository sources; the creation
defaults below (`startedAt`/`timestamp` = now, `duration` = 0,
`pageViewCount` = 1, `bounced` = true) are modelled from the spec
(§3 Data model, §4.2 Ingestion Service). -/

/-- An `AnalyticsSession` row. -/
structure Session where
  id : String
  visitorId : String
  entryPage : String
  exitPage : String
  startedAt : Int
  lastActiveAt : Int
  duration : Int
  pageViewCount : Int
  bounced : Bool
  referrer : Option String
  referrerDomain : Option String
  utmSource : Option String
  utmMedium : Option String
  utmCampaign : Option String
  deviceType : Option String
  browser : Option String
  browserVersion : Option String
  os : Option String
  osVersion : Option String
  screenWidth : Option Int
  screenHeight : Option Int
  language : Option String
  country : Option String
  countryCode : Option String
  city : Option String
  region : Option String
  latitude : Option ℚ
  longitude : Option ℚ
  timezone : Option String
deriving Repr, DecidableEq

/-- A `PageView` row. -/
structure PageView where
  id : String
  sessionId : String
  path : String
  title : Option String
  referrer : Option String
  timestamp : Int
  timeOnPage : Option Int
  scrollDepth : Option Int
deriving Repr, DecidableEq

/-- The durable store: the two row tables.  Creation appends at the end,
update maps over the rows. -/
structure Store where
  sessions : List Session
  pageViews : List PageView
deriving Repr, DecidableEq

/-! ## `extractReferrerDomain` (lines 5–12)

`new URL(referrer).hostname` is modelled as: the text after the first
`"://"` up to the first `/`, `:`, `?` or `#`; a referrer without `"://"`
is treated as malformed (the JS constructor throws, caught to `null`).
The leading `"www."` is then stripped, as in the source.  No claim
depends on the exact hostname grammar. -/

/-- Find the first `"://"` and return what follows it, or `none`. -/
def afterScheme : List Char → Option (List Char)
  | [] => none
  | c :: t =>
    if (':' :: '/' :: '/' :: []).isPrefixOf (c :: t) then some (t.drop 2)
    else afterScheme t

/-- `extractReferrerDomain` from the source. -/
def extractReferrerDomain (referrer : Option String) : Option String :=
  match truthyStr referrer with
  | none => none
  | some r =>
    match afterScheme r.data with
    | none => none
    | some rest =>
      let host := rest.takeWhile (fun c => c ≠ '/' && c ≠ ':' && c ≠ '?' && c ≠ '#')
      let host := if ("www.".data).isPrefixOf host then host.drop 4 else host
      some ⟨host⟩

/-! ## Ingestion: `collectHandler` (lines 57–165) -/

/-- The request body of `collect` (its validated shape). -/
structure CollectBody where
  visitorId : String
  sessionId : Option String
  path : String
  title : Option String
  referrer : Option String
  utmSource : Option String
  utmMedium : Option String
  utmCampaign : Option String
  deviceType : Option String
  browser : Option String
  browserVersion : Option String
  os : Option String
  osVersion : Option String
  screenWidth : Option Int
  screenHeight : Option Int
  language : Option String
deriving Repr, DecidableEq

/-- The result of the geo-enrichment lookup (`geoLookup`), a black box to
this module: every field optional. -/
structure GeoInfo where
  country : Option String
  countryCode : Option String
  city : Option String
  region : Option String
  latitude : Option ℚ
  longitude : Option ℚ
  timezone : Option String
deriving Repr, DecidableEq

/-- The 30-minute session-timeout window in milliseconds (`30 * 60 * 1000`). -/
def sessionTimeoutMs : Int := 30 * 60 * 1000

/-- The `analyticsSession.update` of the reuse branch of `collectHandler`:
on the row with the resolved id, set `lastActiveAt` to now, `exitPage` to
the incoming path, increment `pageViewCount` and clear `bounced`. -/
def collectUpd (now : Int) (path sid : String) (t : Session) : Session :=
  if t.id = sid then
    { t with lastActiveAt := now, exitPage := path,
             pageViewCount := t.pageViewCount + 1, bounced := false }
  else t

/-- The `analyticsSession.create` of the new-session branch of
`collectHandler` (creation defaults modelled from the spec, see above). -/
def newSessionRow (now : Int) (freshSessionId : String) (geo : GeoInfo)
    (b : CollectBody) : Session :=
  { id := freshSessionId, visitorId := b.visitorId,
    entryPage := b.path, exitPage := b.path,
    startedAt := now, lastActiveAt := now,
    duration := 0, pageViewCount := 1, bounced := true,
    referrer := b.referrer,
    referrerDomain := extractReferrerDomain b.referrer,
    utmSource := b.utmSource, utmMedium := b.utmMedium,
    utmCampaign := b.utmCampaign,
    deviceType := b.deviceType, browser := b.browser,
    browserVersion := b.browserVersion,
    os := b.os, osVersion := b.osVersion,
    screenWidth := b.screenWidth, screenHeight := b.screenHeight,
    language := b.language,
    country := geo.country, countryCode := geo.countryCode,
    city := geo.city, region := geo.region,
    latitude := geo.latitude, longitude := geo.longitude,
    timezone := geo.timezone }

/-- The session filter of `collectHandler`'s `findFirst`: id and visitor id
match and `lastActiveAt ≥ now − 30 min`. -/
def openSessionFilter (now : Int) (sid visitorId : String) (s : Session) : Bool :=
  s.id == sid && s.visitorId == visitorId &&
    decide (now - sessionTimeoutMs ≤ s.lastActiveAt)

/-- The session-stitcher lookup of `collectHandler` (lines 85–95): when a
truthy candidate session id was supplied, the first session row matching
`openSessionFilter`; otherwise no session. -/
def resolveOpenSession (now : Int) (b : CollectBody) (st : Store) : Option Session :=
  -- `if (b.sessionId)` — JS truthiness, then the `findFirst` filter
  match truthyStr b.sessionId with
  | some sid => st.sessions.find? (openSessionFilter now sid b.visitorId)
  | none => none

/-- `collectHandler`: resolve or open a session, then insert a page view.
`now` is the request time; `freshSessionId`/`freshPageViewId` are the ids
the store would mint for newly created rows; `geo` is the result of the
geo lookup (only consulted when a new session is created).  Returns the
updated store and the session id sent in the reply. -/
def collect (now : Int) (freshSessionId freshPageViewId : String) (geo : GeoInfo)
    (b : CollectBody) (st : Store) : Store × String :=
  match resolveOpenSession now b st with
  | some s =>
    -- update the existing session, then create a page view
    let pv : PageView :=
      { id := freshPageViewId, sessionId := s.id, path := b.path,
        title := b.title, referrer := b.referrer, timestamp := now,
        timeOnPage := none, scrollDepth := none }
    (⟨st.sessions.map (collectUpd now b.path s.id), st.pageViews ++ [pv]⟩, s.id)
  | none =>
    -- new session: geo enrichment + referrer domain, then first page view
    let pv : PageView :=
      { id := freshPageViewId, sessionId := freshSessionId, path := b.path,
        title := b.title, referrer := none, timestamp := now,
        timeOnPage := none, scrollDepth := none }
    (⟨st.sessions ++ [newSessionRow now freshSessionId geo b], st.pageViews ++ [pv]⟩,
      freshSessionId)

/-! ## Ingestion: `heartbeatHandler` (lines 168–213) -/

/-- The observable outcome of a heartbeat call: 200 ok or 404 not-found. -/
inductive HeartbeatResult where
  | ok
  | notFound
deriving Repr, DecidableEq

/-- One step of a maximum-timestamp scan; ties keep the earlier-stored
row. -/
def pickLatest (acc : Option PageView) (v : PageView) : Option PageView :=
  match acc with
  | none => some v
  | some w => if w.timestamp < v.timestamp then some v else some w

/-- `findFirst({where: {sessionId, path}, orderBy: {timestamp: "desc"}})`:
the first row, in stored order, carrying the maximal timestamp among the
rows for that session and path. -/
def latestPageView (pvs : List PageView) (sid p : String) : Option PageView :=
  (pvs.filter (fun v => v.sessionId == sid && v.path == p)).foldl pickLatest none

/-- The `analyticsSession.update` of `heartbeatHandler`: set
`lastActiveAt` to now and `duration` to the recomputed value on the row
with the given id. -/
def heartbeatUpd (now duration : Int) (sid : String) (t : Session) : Session :=
  if t.id = sid then { t with lastActiveAt := now, duration := duration } else t

/-- The `pageView.update` of `heartbeatHandler`: on the located most-recent
view, ratchet the scroll depth (`Math.max(scrollDepth, latestView.scrollDepth || 0)`)
and set `timeOnPage` to now minus the view's own timestamp in whole
seconds. -/
def ratchetUpd (now : Int) (sd : Int) (v : PageView) (w : PageView) : PageView :=
  if w.id = v.id then
    { w with
        scrollDepth := some (max sd (v.scrollDepth.getD 0)),
        timeOnPage := some (Int.fdiv (now - v.timestamp) 1000) }
  else w

/-- `heartbeatHandler`: recompute duration and last-active-at on the
session; when a scroll depth and a (truthy) path are supplied, ratchet the
scroll depth and set time-on-page on the most recent page view for that
(session, path) pair.  Unknown session id: 404, store untouched. -/
def heartbeat (now : Int) (sessionId : String) (scrollDepth : Option Int)
    (path : Option String) (st : Store) : Store × HeartbeatResult :=
  match st.sessions.find? (fun s => s.id == sessionId) with
  | none => (st, .notFound)
  | some s =>
    -- `Math.floor((Date.now() - session.startedAt.getTime()) / 1000)`
    let duration := Int.fdiv (now - s.startedAt) 1000
    let sessions := st.sessions.map (heartbeatUpd now duration sessionId)
    let pageViews :=
      -- `if (scrollDepth !== undefined && path)`
      match scrollDepth, truthyStr path with
      | some sd, some p =>
        match latestPageView st.pageViews sessionId p with
        | some v => st.pageViews.map (ratchetUpd now sd v)
        | none => st.pageViews
      | _, _ => st.pageViews
    (⟨sessions, pageViews⟩, .ok)

/-- Repeated heartbeats feeding a list of scroll depths for one
(session, path) pair. -/
def feedDepths (now : Int) (sid p : String) (depths : List Int) (st : Store) : Store :=
  depths.foldl (fun acc d => (heartbeat now sid (some d) (some p) acc).1) st

/-! ## Frame predicates for the session mutations (claim C9) -/

/-- All `Session` fields except the four a `collect` on an existing session
mutates (`lastActiveAt`, `exitPage`, `pageViewCount`, `bounced`) agree
between `s` and `t`.  In particular the geography fields and `startedAt`
agree. -/
def collectFrame (s t : Session) : Prop :=
  t.id = s.id ∧ t.visitorId = s.visitorId ∧ t.entryPage = s.entryPage ∧
  t.startedAt = s.startedAt ∧ t.duration = s.duration ∧
  t.referrer = s.referrer ∧ t.referrerDomain = s.referrerDomain ∧
  t.utmSource = s.utmSource ∧ t.utmMedium = s.utmMedium ∧ t.utmCampaign = s.utmCampaign ∧
  t.deviceType = s.deviceType ∧ t.browser = s.browser ∧ t.browserVersion = s.browserVersion ∧
  t.os = s.os ∧ t.osVersion = s.osVersion ∧
  t.screenWidth = s.screenWidth ∧ t.screenHeight = s.screenHeight ∧ t.language = s.language ∧
  t.country = s.country ∧ t.countryCode = s.countryCode ∧ t.city = s.city ∧
  t.region = s.region ∧ t.latitude = s.latitude ∧ t.longitude = s.longitude ∧
  t.timezone = s.timezone

/-- All `Session` fields except the two a `heartbeat` mutates
(`lastActiveAt`, `duration`) agree between `s` and `t`. -/
def heartbeatFrame (s t : Session) : Prop :=
  t.id = s.id ∧ t.visitorId = s.visitorId ∧ t.entryPage = s.entryPage ∧
  t.exitPage = s.exitPage ∧ t.startedAt = s.startedAt ∧
  t.pageViewCount = s.pageViewCount ∧ t.bounced = s.bounced ∧
  t.referrer = s.referrer ∧ t.referrerDomain = s.referrerDomain ∧
  t.utmSource = s.utmSource ∧ t.utmMedium = s.utmMedium ∧ t.utmCampaign = s.utmCampaign ∧
  t.deviceType = s.deviceType ∧ t.browser = s.browser ∧ t.browserVersion = s.browserVersion ∧
  t.os = s.os ∧ t.osVersion = s.osVersion ∧
  t.screenWidth = s.screenWidth ∧ t.screenHeight = s.screenHeight ∧ t.language = s.language ∧
  t.country = s.country ∧ t.countryCode = s.countryCode ∧ t.city = s.city ∧
  t.region = s.region ∧ t.latitude = s.latitude ∧ t.longitude = s.longitude ∧
  t.timezone = s.timezone

/-! ## Aggregation arithmetic (`getStatsHandler`, lines 216–319) -/

/-- JS `Math.round`: nearest integer, halves towards `+∞` — exactly
Mathlib's `round` on `ℚ` (`⌊x + 1/2⌋`). -/
def jsRound (x : ℚ) : ℤ := round x

/-- `Math.round(x * 10) / 10`: round to one decimal place. -/
def round1 (x : ℚ) : ℚ := (jsRound (x * 10) : ℚ) / 10

/-- `new Set(xs).size`: the number of distinct elements. -/
def distinctCount (xs : List String) : ℕ := xs.dedup.length

/-- `pctChange` from `getStatsHandler` (lines 293–296): percentage change
versus the previous period, one decimal, with `prev = 0 ↦ 100 or 0`. -/
def pctChange (curr prev : ℚ) : ℚ :=
  if prev = 0 then (if 0 < curr then 100 else 0)
  else round1 ((curr - prev) / prev * 100)

/-- `new Set(sessions.map(s => s.visitorId)).size`. -/
def uniqueVisitors (ss : List Session) : ℕ := distinctCount (ss.map (·.visitorId))

/-- `Math.round(sum of durations / totalSessions)`, 0 when no sessions. -/
def avgDurationOf (ss : List Session) : ℤ :=
  if 0 < ss.length then jsRound (((ss.map (·.duration)).sum : ℚ) / ss.length) else 0

/-- `Math.round((bounced / totalSessions) * 100 * 10) / 10`, 0 when no
sessions. -/
def bounceRateOf (ss : List Session) : ℚ :=
  if 0 < ss.length then round1 ((((ss.filter (·.bounced)).length : ℚ) / ss.length) * 100)
  else 0

/-- `Math.round((sum of pageViewCount / totalSessions) * 10) / 10`, 0 when
no sessions. -/
def pagesPerSessionOf (ss : List Session) : ℚ :=
  if 0 < ss.length then round1 (((ss.map (·.pageViewCount)).sum : ℚ) / ss.length) else 0

/-- The numeric fields of the stats reply's `data` object.  Note: there is
a `pagesPerSession` field but no `pagesPerSessionChange` — the reply sends
no change for it. -/
structure StatsData where
  visitors : ℕ
  visitorsChange : ℚ
  sessions : ℕ
  sessionsChange : ℚ
  pageViews : ℕ
  pageViewsChange : ℚ
  avgDuration : ℤ
  avgDurationChange : ℚ
  bounceRate : ℚ
  bounceRateChange : ℚ
  pagesPerSession : ℚ
deriving Repr, DecidableEq

/-- The metric computation of `getStatsHandler` (lines 272–314) given the
fetched current/previous rows and page-view counts. -/
def getStats (sessions prevSessions : List Session) (pageViews prevPageViews : ℕ) :
    StatsData :=
  { visitors := uniqueVisitors sessions,
    visitorsChange := pctChange (uniqueVisitors sessions) (uniqueVisitors prevSessions),
    sessions := sessions.length,
    sessionsChange := pctChange sessions.length prevSessions.length,
    pageViews := pageViews,
    pageViewsChange := pctChange pageViews prevPageViews,
    avgDuration := avgDurationOf sessions,
    avgDurationChange := pctChange (avgDurationOf sessions) (avgDurationOf prevSessions),
    bounceRate := bounceRateOf sessions,
    bounceRateChange := pctChange (bounceRateOf sessions) (bounceRateOf prevSessions),
    pagesPerSession := pagesPerSessionOf sessions }

/-- The keys of the JSON `data` object sent by `getStatsHandler`
(lines 298–314), in source order. -/
def statsDataKeys : List String :=
  ["visitors", "visitorsChange", "sessions", "sessionsChange",
   "pageViews", "pageViewsChange", "avgDuration", "avgDurationChange",
   "bounceRate", "bounceRateChange", "pagesPerSession", "range"]

/-- The `switch (range)` of `getStatsHandler` (lines 228–249):
`(since, prevSince, prevUntil)` in ms.  `midnight` abstracts
`new Date(now.getFullYear(), now.getMonth(), now.getDate())` (local
midnight). -/
def statsWindow (range : String) (now midnight : Int) : Int × Int × Int :=
  match range with
  | "today" => (midnight, midnight - 86400000, midnight)
  | "30d" => (now - 30 * 86400000, now - 60 * 86400000, now - 30 * 86400000)
  | "all" => (0, 0, 0)
  | _ => (now - 7 * 86400000, now - 14 * 86400000, now - 7 * 86400000)

/-- The nominal window length of each bounded range. -/
def rangeLengthMs (range : String) : Int :=
  match range with
  | "today" => 86400000
  | "30d" => 30 * 86400000
  | _ => 7 * 86400000

/-- The full stats query: filter both tables to the current and previous
windows (previous skipped for range `all`) and compute the metrics. -/
def getStatsForRange (range : String) (now midnight : Int) (st : Store) : StatsData :=
  let w := statsWindow range now midnight
  let cur := st.sessions.filter (fun s => w.1 ≤ s.startedAt)
  let prev :=
    if range ≠ "all" then
      st.sessions.filter (fun s => w.2.1 ≤ s.startedAt ∧ s.startedAt < w.2.2)
    else []
  let pv := (st.pageViews.filter (fun v => w.1 ≤ v.timestamp)).length
  let ppv :=
    if range ≠ "all" then
      (st.pageViews.filter (fun v => w.2.1 ≤ v.timestamp ∧ v.timestamp < w.2.2)).length
    else 0
  getStats cur prev pv ppv

/-! ## JS collection primitives used by the aggregation handlers -/

/-- `Set.prototype.add`: append if not already present (JS sets keep
insertion order; `size` is the list length). -/
def setAdd (s : List String) (x : String) : List String :=
  if x ∈ s then s else s ++ [x]

/-- `Map` upsert in insertion order: mutate the entry for `k` with `f`,
first inserting default `d` if `k` is absent (the
`if (!map.has(k)) map.set(k, init); mutate(map.get(k))` pattern). -/
def upsert {β : Type} (k : String) (d : β) (f : β → β) :
    List (String × β) → List (String × β)
  | [] => [(k, f d)]
  | (k', v) :: rest =>
    if k' = k then (k', f v) :: rest else (k', v) :: upsert k d f rest

/-- `Map.prototype.get`. -/
def lookupKey {β : Type} (m : List (String × β)) (k : String) : Option β :=
  (m.find? (fun kv => kv.1 == k)).map (fun kv => kv.2)

/-- Model of JS `parseInt(s, 10)`: skip leading whitespace, optional sign,
then the longest digit prefix; no digits means `NaN`, modelled `none`. -/
def parseIntJS (s : String) : Option Int :=
  let l := s.data.dropWhile (fun c => c == ' ' || c == '\t' || c == '\n' || c == '\r')
  let signed : Bool × List Char :=
    match l with
    | '-' :: t => (true, t)
    | '+' :: t => (false, t)
    | t => (false, t)
  let ds := signed.2.takeWhile Char.isDigit
  if ds.isEmpty then none
  else
    let n : Nat := ds.foldl (fun a c => a * 10 + (c.toNat - 48)) 0
    some (if signed.1 then -(n : Int) else (n : Int))

/-- `xs.slice(0, lim)`: a `NaN` end (modelled `none`) converts to 0 and
keeps nothing; a negative end counts from the end of the array. -/
def jsSlice {α : Type} (xs : List α) (lim : Option Int) : List α :=
  match lim with
  | none => []
  | some n => if 0 ≤ n then xs.take n.toNat else xs.take (xs.length - (-n).toNat)

/-! ## Top pages (`getTopPagesHandler`, lines 392–467) -/

/-- `parseInt(q.limit || "20", 10)`: a missing or empty limit parameter
falls back to the string `"20"` before parsing. -/
def resolveLimit (qlimit : Option String) : Option Int :=
  parseIntJS ((truthyStr qlimit).getD "20")

/-- The common `switch (range)` start-of-window computation of the
aggregation handlers (`since`); `midnight` abstracts local midnight of
`now`, and `all` is the epoch. -/
def rangeSince (range : String) (now midnight : Int) : Int :=
  match range with
  | "today" => midnight
  | "30d" => now - 30 * 86400000
  | "all" => 0
  | _ => now - 7 * 86400000

/-- The per-path accumulator of `getTopPagesHandler` (lines 417–436). -/
structure PageAgg where
  title : String
  views : ℕ
  totalTime : ℤ
  timeCount : ℕ
  totalScroll : ℤ
  scrollCount : ℕ
  sessions : List String
deriving Repr, DecidableEq

/-- The entry installed when a path is first seen:
`{title: v.title || v.path, views: 0, ..., sessions: new Set()}`. -/
def initAgg (v : PageView) : PageAgg :=
  { title := (truthyStr v.title).getD v.path, views := 0, totalTime := 0,
    timeCount := 0, totalScroll := 0, scrollCount := 0, sessions := [] }

/-- The per-view mutation (lines 430–435): `views++`; a truthy title
overrides; truthy (non-null, non-zero) `timeOnPage`/`scrollDepth` are
accumulated with their counters; the session id joins the set. -/
def updAgg (p : PageAgg) (v : PageView) : PageAgg :=
  { p with
    views := p.views + 1,
    title := (truthyStr v.title).getD p.title,
    totalTime :=
      match truthyInt v.timeOnPage with
      | some t => p.totalTime + t
      | none => p.totalTime,
    timeCount :=
      match truthyInt v.timeOnPage with
      | some _ => p.timeCount + 1
      | none => p.timeCount,
    totalScroll :=
      match truthyInt v.scrollDepth with
      | some d => p.totalScroll + d
      | none => p.totalScroll,
    scrollCount :=
      match truthyInt v.scrollDepth with
      | some _ => p.scrollCount + 1
      | none => p.scrollCount,
    sessions := setAdd p.sessions v.sessionId }

/-- One iteration of the `for (const v of views)` aggregation loop. -/
def pageStep (m : List (String × PageAgg)) (v : PageView) : List (String × PageAgg) :=
  upsert v.path (initAgg v) (fun p => updAgg p v) m

/-- The aggregated per-path map (`pageMap`). -/
def getTopPagesAgg (views : List PageView) : List (String × PageAgg) :=
  views.foldl pageStep []

/-- `sessionPageCounts.get(sid)` (lines 439–442): the number of in-range
views of this session across all paths (0 when absent). -/
def countViews (views : List PageView) (sid : String) : ℕ :=
  (views.filter (fun v => v.sessionId == sid)).length

/-- One reported row of the top-pages view. -/
structure TopPage where
  path : String
  title : String
  views : ℕ
  uniqueVisitors : ℕ
  avgTime : ℤ
  avgScroll : ℤ
  bounceRate : ℤ
deriving Repr, DecidableEq

/-- The reported row for one path (lines 445–457): means guarded by their
counters, bounce rate = rounded percentage of the path's sessions whose
total in-range view count is exactly 1. -/
def pageEntry (views : List PageView) (path : String) (d : PageAgg) : TopPage :=
  { path := path, title := d.title, views := d.views,
    uniqueVisitors := d.sessions.length,
    avgTime := if 0 < d.timeCount then jsRound ((d.totalTime : ℚ) / d.timeCount) else 0,
    avgScroll := if 0 < d.scrollCount then jsRound ((d.totalScroll : ℚ) / d.scrollCount) else 0,
    bounceRate :=
      if 0 < d.sessions.length then
        jsRound ((((d.sessions.filter (fun s => countViews views s == 1)).length : ℚ) /
          (d.sessions.length : ℚ)) * 100)
      else 0 }

/-- `getTopPagesHandler` on the fetched in-range views: aggregate by path,
map to reported rows, sort descending by view count (JS stable sort,
modelled by insertion sort), and `slice(0, limit)`. -/
def getTopPages (views : List PageView) (qlimit : Option String) : List TopPage :=
  let entries := (getTopPagesAgg views).map (fun kv => pageEntry views kv.1 kv.2)
  jsSlice (List.insertionSort (fun a b => b.views ≤ a.views) entries) (resolveLimit qlimit)

/-- The full top-pages query including the range filter on timestamps. -/
def getTopPagesForRange (range : String) (now midnight : Int) (st : Store)
    (qlimit : Option String) : List TopPage :=
  getTopPages (st.pageViews.filter (fun v => rangeSince range now midnight ≤ v.timestamp))
    qlimit

/-! ## Spec-level quantities for the top-pages claims -/

/-- The in-range views of one path. -/
def pathViews (views : List PageView) (path : String) : List PageView :=
  views.filter (fun v => v.path == path)

/-- The distinct sessions that viewed a path (as a deduplicated list). -/
def pathSessions (views : List PageView) (path : String) : List String :=
  ((pathViews views path).map PageView.sessionId).dedup

/-- The number of distinct sessions of this path whose total number of
in-range views across all paths is exactly one. -/
def bouncedSessionsOf (views : List PageView) (path : String) : ℕ :=
  ((pathSessions views path).filter (fun s => countViews views s == 1)).length

/-- The recorded (truthy) time-on-page values of a path's views. -/
def recordedTimes (views : List PageView) (path : String) : List ℤ :=
  (pathViews views path).filterMap (fun v => truthyInt v.timeOnPage)

/-- The recorded (truthy) scroll-depth values of a path's views. -/
def recordedScrolls (views : List PageView) (path : String) : List ℤ :=
  (pathViews views path).filterMap (fun v => truthyInt v.scrollDepth)

/-! ## Time series (`getTimeSeriesHandler`, lines 322–389)

The bucket keys are built from the components of the event's own
timestamp in local/server time (`d.getFullYear()`, `getMonth()`,
`getDate()`, `getHours()`).  The calendar itself lives in the JS runtime;
it is modelled by a `Clock` of component functions, about which the
theorems assume only what a calendar guarantees (bounded components,
monotone truncation). -/

/-- Bucket granularity: by hour for range `today`, else by calendar day. -/
inductive Granularity where
  | hour
  | day
deriving Repr, DecidableEq

/-- The local-time component accessors of a JS `Date`: year
(`getFullYear`), 0-based month (`getMonth`), 1-based day of month
(`getDate`), hour (`getHours`), applied to a millisecond timestamp. -/
structure Clock where
  year : Int → Nat
  month : Int → Nat
  day : Int → Nat
  hour : Int → Nat

/-- `String.prototype.padStart(2, "0")`. -/
def padStart2 (s : String) : String := if s.length < 2 then "0" ++ s else s

/-- `String(n).padStart(2, "0")`. -/
def pad2 (n : Nat) : String := padStart2 (Nat.repr n)

/-- The day-granularity bucket key `YYYY-MM-DD` (line 366). -/
def dayKey (c : Clock) (t : Int) : String :=
  Nat.repr (c.year t) ++ "-" ++ pad2 (c.month t + 1) ++ "-" ++ pad2 (c.day t)

/-- The hour-granularity bucket key `YYYY-MM-DDTHH:00` (line 365). -/
def hourKey (c : Clock) (t : Int) : String :=
  dayKey c t ++ "T" ++ pad2 (c.hour t) ++ ":00"

/-- The bucket key at the selected granularity. -/
def bucketKey (c : Clock) (g : Granularity) (t : Int) : String :=
  match g with
  | .hour => hourKey c t
  | .day => dayKey c t

/-- The `switch (range)` of `getTimeSeriesHandler` (lines 333–350):
window start and granularity; `all` is capped to the trailing 90 days. -/
def tsParams (range : String) (now midnight : Int) : Int × Granularity :=
  if range = "today" then (midnight, .hour)
  else if range = "30d" then (now - 30 * 86400000, .day)
  else if range = "all" then (now - 90 * 86400000, .day)
  else (now - 7 * 86400000, .day)

/-- One bucket under construction: `{views: number, sessions: Set}`. -/
structure BucketData where
  views : ℕ
  sessions : List String
deriving Repr, DecidableEq

/-- The per-view bucket mutation: `bucket.views++;
bucket.sessions.add(pv.sessionId)`. -/
def updBucket (b : BucketData) (v : PageView) : BucketData :=
  ⟨b.views + 1, setAdd b.sessions v.sessionId⟩

/-- One iteration of the bucketing loop (lines 362–374). -/
def bucketStep (c : Clock) (g : Granularity) (m : List (String × BucketData))
    (v : PageView) : List (String × BucketData) :=
  upsert (bucketKey c g v.timestamp) ⟨0, []⟩ (fun b => updBucket b v) m

/-- One emitted point of the series: bucket key, view count, distinct
session count (the reply calls it `visitors`). -/
structure SeriesPoint where
  time : String
  views : ℕ
  visitors : ℕ
deriving Repr, DecidableEq

/-- The output ordering `(a, b) => a.time.localeCompare(b.time)`,
modelled as lexicographic order on the key's characters (the keys are
ASCII digits and separators, for which `localeCompare` agrees with
codepoint order). -/
def seriesLe (a b : SeriesPoint) : Prop := a.time.data ≤ b.time.data

instance : DecidableRel seriesLe :=
  fun a b => (inferInstance : Decidable (a.time.data ≤ b.time.data))

/-- The in-range rows: `findMany({where: {timestamp: {gte: since}}})`. -/
def inRangeViews (since : Int) (pvs : List PageView) : List PageView :=
  pvs.filter (fun v => since ≤ v.timestamp)

/-- `getTimeSeriesHandler` on the store rows: filter to the window, fetch
in ascending timestamp order, bucket by key, then emit
`(time, views, visitors)` sorted by key. -/
def getTimeSeries (c : Clock) (g : Granularity) (since : Int)
    (pvs : List PageView) : List SeriesPoint :=
  let rows := List.insertionSort (fun a b : PageView => a.timestamp ≤ b.timestamp)
    (inRangeViews since pvs)
  let buckets := rows.foldl (bucketStep c g) []
  List.insertionSort seriesLe
    (buckets.map (fun kv => ⟨kv.1, kv.2.views, kv.2.sessions.length⟩))

/-- Calendar-component bounds under which the rendered key blocks have
their nominal widths (4-digit year, 2-digit month/day/hour fields). -/
def keyBounds (c : Clock) (t : Int) : Prop :=
  1000 ≤ c.year t ∧ c.year t ≤ 9999 ∧ c.month t + 1 < 100 ∧
    c.day t < 100 ∧ c.hour t < 100

instance (c : Clock) (t : Int) : Decidable (keyBounds c t) := by
  unfold keyBounds
  infer_instance

/-- The bucket key read as a number, lexicographically faithful under
`keyBounds`: `((year·100 + month+1)·100 + day)` and, at hour granularity,
a further `·100 + hour`. -/
def encKey (c : Clock) (g : Granularity) (t : Int) : ℕ :=
  match g with
  | .day => (c.year t * 100 + (c.month t + 1)) * 100 + c.day t
  | .hour => ((c.year t * 100 + (c.month t + 1)) * 100 + c.day t) * 100 + c.hour t

/-! ## Decimal-rendering helpers (proof-side only)

`unpadDigits n` is the big-endian digit-character list of `n` (what
`Nat.repr` produces); `padDigits k n` is its `k`-wide zero-padded form. -/

/-- Big-endian decimal digits of `n`, as characters. -/
def unpadDigits (n : Nat) : List Char :=
  if h : n < 10 then [Nat.digitChar n]
  else
    have : n / 10 < n := Nat.div_lt_self (by omega) (by omega)
    unpadDigits (n / 10) ++ [Nat.digitChar (n % 10)]

/-- The `k` low-order decimal digits of `n`, big-endian, zero-padded. -/
def padDigits : Nat → Nat → List Char
  | 0, _ => []
  | k + 1, n => Nat.digitChar (n / 10 ^ k) :: padDigits k (n % 10 ^ k)

/-! ## Concrete fixtures (used by witness theorems) -/

/-- An empty geo-lookup result. -/
def geoEmpty : GeoInfo := ⟨none, none, none, none, none, none, none⟩

/-- A minimal collect body for visitor `v1` on path `/a`. -/
def bodyA : CollectBody :=
  { visitorId := "v1", sessionId := none, path := "/a", title := none,
    referrer := none, utmSource := none, utmMedium := none, utmCampaign := none,
    deviceType := none, browser := none, browserVersion := none,
    os := none, osVersion := none, screenWidth := none, screenHeight := none,
    language := none }

/-- A concrete session row: the session `collect` would create at time 0
for `bodyA` with id `s1`. -/
def sessA : Session := newSessionRow 0 "s1" geoEmpty bodyA

/-- A concrete page-view row for `sessA`. -/
def pvA : PageView :=
  { id := "pv1", sessionId := "s1", path := "/a", title := none,
    referrer := none, timestamp := 0, timeOnPage := none, scrollDepth := none }

/-- A concrete one-session, one-page-view store. -/
def storeA : Store := ⟨[sessA], [pvA]⟩

/-- Concrete view rows: three sessions on `/a`, two of which also viewed
`/b`; only `s1` bounced (one view in total). -/
def cviews : List PageView :=
  [⟨"a1", "s1", "/a", none, none, 0, none, none⟩,
   ⟨"a2", "s2", "/a", none, none, 0, none, none⟩,
   ⟨"b2", "s2", "/b", none, none, 0, none, none⟩,
   ⟨"a3", "s3", "/a", none, none, 0, none, none⟩,
   ⟨"b3", "s3", "/b", none, none, 0, none, none⟩]

/-- Concrete view rows for the recorded-zero means: on `/a`, one view
recorded `timeOnPage = 0` and `scrollDepth = 0`, the other recorded 10
and 50. -/
def tviews : List PageView :=
  [⟨"t1", "s1", "/a", none, none, 0, some 0, some 0⟩,
   ⟨"t2", "s2", "/a", none, none, 0, some 10, some 50⟩]

/-- Spec-side (claim C7) reading of "views that have a recorded
time-on-page": those with a non-null value, a recorded 0 included. -/
def claimRecordedTimes (views : List PageView) (path : String) : List ℤ :=
  (pathViews views path).filterMap (fun v => v.timeOnPage)

/-- Spec-side (claim C7) mean time-on-page over the views with a recorded
value, the recorded zeros included. -/
def claimAvgTime (views : List PageView) (path : String) : ℚ :=
  ((claimRecordedTimes views path).sum : ℚ) / ((claimRecordedTimes views path).length : ℚ)

/-- The reported row for `/a` of `cviews` (its aggregate spelled out). -/
def tpA : TopPage := pageEntry cviews "/a" ⟨"/a", 3, 0, 0, 0, 0, ["s1", "s2", "s3"]⟩

/-- The reported row for `/b` of `cviews`. -/
def tpB : TopPage := pageEntry cviews "/b" ⟨"/b", 2, 0, 0, 0, 0, ["s2", "s3"]⟩

/-- The reported row for `/a` of `tviews`. -/
def tpageA : TopPage := pageEntry tviews "/a" ⟨"/a", 2, 10, 1, 50, 1, ["s1", "s2"]⟩

/-- A concrete clock: June 15, 2025, with the hour read off the timestamp
(UTC-style) — timestamps below are milliseconds into that day. -/
def clockJune : Clock :=
  ⟨fun _ => 2025, fun _ => 5, fun _ => 15, fun t => ((t.fdiv 3600000).emod 24).toNat⟩

/-- The claim's example: page views at 10:05, 10:55 and 11:02. -/
def examplePvs : List PageView :=
  [⟨"e1", "s1", "/a", none, none, 36300000, none, none⟩,
   ⟨"e2", "s2", "/a", none, none, 39300000, none, none⟩,
   ⟨"e3", "s3", "/b", none, none, 39720000, none, none⟩]

end Analytics

namespace Analytics

/-! ## Theorems for claim C1 -/

/-- C1, counterexample: the session categorization of UTM source
`"facebook_ads"` is `"Paid Ads"` (the `"ads"` substring test fires), not
`"Social Media"`: the social-platform test in the UTM branch is an exact
membership test, not a substring match. -/
theorem categorize_facebook_ads_is_paid_ads :
    categorizeTrafficSource (some "facebook.com") (some "facebook_ads") = "Paid Ads" ∧
    categorizeTrafficSource (some "facebook.com") (some "facebook_ads") ≠ "Social Media" := by
  constructor <;> decide

/-- C1 (amended): when a session's UTM source is present (truthy), it alone
decides the traffic-source category — the referrer domain is ignored — and
in particular UTM source `"facebook_ads"` is categorized `"Paid Ads"`
(via the `"ads"` substring test; the social-platform check is an exact
match, so `"facebook_ads"` does not land in `"Social Media"`). -/
theorem categorize_utm_precedence (rd rd' : Option String) (u : String) (hu : u ≠ "") :
    categorizeTrafficSource rd (some u) = categorizeTrafficSource rd' (some u) ∧
    categorizeTrafficSource rd (some u) = utmCategory u ∧
    categorizeTrafficSource rd (some "facebook_ads") = "Paid Ads" := by
  have h : ∀ r : Option String, categorizeTrafficSource r (some u) = utmCategory u := by
    intro r
    simp [categorizeTrafficSource, truthyStr, hu]
  have hads : ∀ r : Option String,
      categorizeTrafficSource r (some "facebook_ads") = "Paid Ads" := by
    intro r
    have : categorizeTrafficSource r (some "facebook_ads") = utmCategory "facebook_ads" := by
      simp [categorizeTrafficSource, truthyStr]
    rw [this]
    decide
  exact ⟨(h rd).trans (h rd').symm, h rd, hads rd⟩

/-- Witness for `categorize_utm_precedence` at a concrete input. -/
theorem categorize_utm_precedence_witness :
    categorizeTrafficSource (some "facebook.com") (some "facebook_ads") =
      categorizeTrafficSource none (some "facebook_ads") ∧
    categorizeTrafficSource (some "facebook.com") (some "facebook_ads") =
      utmCategory "facebook_ads" ∧
    categorizeTrafficSource (some "facebook.com") (some "facebook_ads") = "Paid Ads" :=
  categorize_utm_precedence (some "facebook.com") none "facebook_ads" (by decide)

/-! ## Generic helper lemmas -/

/-- Mapping a projection over rows updated by a projection-preserving
function leaves the projected list unchanged. -/
theorem map_map_of_preserve {α β : Type} (f : α → α) (g : α → β) (l : List α)
    (h : ∀ a, g (f a) = g a) : (l.map f).map g = l.map g := by
  induction l with
  | nil => rfl
  | cons a t ih => simp [h, ih]

theorem truthyStr_eq_none_iff (o : Option String) :
    truthyStr o = none ↔ o = none ∨ o = some "" := by
  cases o with
  | none => simp [truthyStr]
  | some s =>
    by_cases h : s = "" <;> simp [truthyStr, h]

theorem truthyStr_eq_some_iff (o : Option String) (s : String) :
    truthyStr o = some s ↔ o = some s ∧ s ≠ "" := by
  cases o with
  | none => simp [truthyStr]
  | some u =>
    by_cases h : u = ""
    · simp [truthyStr, h]
      intro h2
      exact h2.symm
    · simp [truthyStr, h]
      rintro rfl
      exact h

/-! ## Theorems for claim C8 -/

/-- C8: a heartbeat whose session id matches no existing session reports
not-found and performs no writes (the store is returned unchanged); and no
heartbeat call whatsoever creates a Session or PageView row — the row id
lists of both tables are always preserved (heartbeat only mutates existing
rows in place). -/
theorem heartbeat_no_creation (now : Int) (sid : String) (sd : Option Int)
    (p : Option String) (st : Store) :
    (sid ∉ st.sessions.map Session.id →
      heartbeat now sid sd p st = (st, HeartbeatResult.notFound)) ∧
    (heartbeat now sid sd p st).1.sessions.map Session.id = st.sessions.map Session.id ∧
    (heartbeat now sid sd p st).1.pageViews.map PageView.id = st.pageViews.map PageView.id := by
  refine ⟨fun hnot => ?_, ?_, ?_⟩
  · have hfind : st.sessions.find? (fun s => s.id == sid) = none := by
      rw [List.find?_eq_none]
      intro s hs
      simp only [beq_iff_eq]
      intro h
      exact hnot (h ▸ List.mem_map_of_mem Session.id hs)
    simp [heartbeat, hfind]
  · cases hfind : st.sessions.find? (fun s => s.id == sid) with
    | none => simp [heartbeat, hfind]
    | some s =>
      simp only [heartbeat, hfind]
      exact map_map_of_preserve _ _ _ (fun t => by
        unfold heartbeatUpd
        by_cases h : t.id = sid <;> simp [h])
  · cases hfind : st.sessions.find? (fun s => s.id == sid) with
    | none => simp [heartbeat, hfind]
    | some s =>
      simp only [heartbeat, hfind]
      cases sd with
      | none => rfl
      | some d =>
        cases hp : truthyStr p with
        | none => simp only [hp]
        | some q =>
          simp only [hp]
          cases hl : latestPageView st.pageViews sid q with
          | none => simp only [hl]
          | some v =>
            simp only [hl]
            refine map_map_of_preserve (ratchetUpd now d v) PageView.id st.pageViews
              (fun w => ?_)
            unfold ratchetUpd
            by_cases h : w.id = v.id <;> simp [h]

/-- Witness for `heartbeat_no_creation` at a concrete input (empty store,
unknown session id). -/
theorem heartbeat_no_creation_witness :
    heartbeat 0 "s1" none none ⟨[], []⟩ = (⟨[], []⟩, HeartbeatResult.notFound) :=
  (heartbeat_no_creation 0 "s1" none none ⟨[], []⟩).1 (by decide)

/-! ## Theorems for claim C9 -/

/-- C9: session fields other than the mutated ones are immutable.  Every
collect call leaves, for each pre-existing session row, a row with the
same id agreeing on everything except `lastActiveAt`, `exitPage`,
`pageViewCount` and `bounced` (in particular geography and `startedAt` are
untouched); every heartbeat call leaves, for each pre-existing session
row, a row agreeing on everything except `lastActiveAt` and `duration`. -/
theorem session_immutable_fields (now : Int) (fresh pvid : String) (geo : GeoInfo)
    (b : CollectBody) (sid : String) (sd : Option Int) (p : Option String) (st : Store) :
    (∀ s ∈ st.sessions, ∃ t ∈ (collect now fresh pvid geo b st).1.sessions, collectFrame s t) ∧
    (∀ s ∈ st.sessions, ∃ t ∈ (heartbeat now sid sd p st).1.sessions, heartbeatFrame s t) := by
  constructor
  · intro s hs
    unfold collect
    cases htv : resolveOpenSession now b st with
    | some s0 =>
      refine ⟨collectUpd now b.path s0.id s, List.mem_map_of_mem _ hs, ?_⟩
      unfold collectUpd collectFrame
      by_cases h : s.id = s0.id <;> simp [h]
    | none =>
      exact ⟨s, by simp [hs], by unfold collectFrame; simp⟩
  · intro s hs
    unfold heartbeat
    cases hfind : st.sessions.find? (fun t => t.id == sid) with
    | none => exact ⟨s, hs, by unfold heartbeatFrame; simp⟩
    | some s0 =>
      refine ⟨heartbeatUpd now (Int.fdiv (now - s0.startedAt) 1000) sid s,
        List.mem_map_of_mem _ hs, ?_⟩
      unfold heartbeatUpd heartbeatFrame
      by_cases h : s.id = sid <;> simp [h]

/-- Witness for `session_immutable_fields` at a concrete input. -/
theorem session_immutable_fields_witness :
    (∃ t ∈ (collect 100 "s2" "pv2" geoEmpty bodyA storeA).1.sessions, collectFrame sessA t) ∧
    (∃ t ∈ (heartbeat 100 "s1" (some 10) (some "/a") storeA).1.sessions, heartbeatFrame sessA t) :=
  ⟨(session_immutable_fields 100 "s2" "pv2" geoEmpty bodyA "s1" (some 10) (some "/a") storeA).1
      sessA (by simp [storeA]),
   (session_immutable_fields 100 "s2" "pv2" geoEmpty bodyA "s1" (some 10) (some "/a") storeA).2
      sessA (by simp [storeA])⟩

/-! ## Theorems for claim C3 -/

/-- C3: a collect call reuses an existing session if and only if a
candidate session id was supplied and some session row matches it exactly
(same id, same visitor id, last-active-at within 30 minutes of now).  On
reuse no session row is created and the candidate id itself is returned;
otherwise a session row is created, the freshly minted id is returned, and
when the candidate names an existing (stale) row the returned id differs
from the candidate.  Hypotheses: the minted id is new, and stored session
ids are non-empty (they are generated, and the empty string is never
minted). -/
theorem collect_session_stitching (now : Int) (fresh pvid : String) (geo : GeoInfo)
    (b : CollectBody) (st : Store)
    (hfresh : fresh ∉ st.sessions.map Session.id)
    (hids : ∀ s ∈ st.sessions, s.id ≠ "") :
    ((∃ sid, b.sessionId = some sid ∧ ∃ s ∈ st.sessions,
        s.id = sid ∧ s.visitorId = b.visitorId ∧ now - sessionTimeoutMs ≤ s.lastActiveAt) →
      (collect now fresh pvid geo b st).1.sessions.length = st.sessions.length ∧
      ∃ sid, b.sessionId = some sid ∧ (collect now fresh pvid geo b st).2 = sid) ∧
    (¬ (∃ sid, b.sessionId = some sid ∧ ∃ s ∈ st.sessions,
        s.id = sid ∧ s.visitorId = b.visitorId ∧ now - sessionTimeoutMs ≤ s.lastActiveAt) →
      (collect now fresh pvid geo b st).1.sessions.length = st.sessions.length + 1 ∧
      (collect now fresh pvid geo b st).2 = fresh ∧
      ∀ sid, b.sessionId = some sid → sid ∈ st.sessions.map Session.id →
        (collect now fresh pvid geo b st).2 ≠ sid) := by
  constructor
  · rintro ⟨sid, hbs, s, hsmem, hid, hvis, hact⟩
    have hsid : sid ≠ "" := fun h => hids s hsmem (by rw [hid, h])
    have htv : truthyStr b.sessionId = some sid := (truthyStr_eq_some_iff _ _).2 ⟨hbs, hsid⟩
    cases hf : st.sessions.find? (openSessionFilter now sid b.visitorId) with
    | none =>
      exfalso
      have hnone := List.find?_eq_none.1 hf s hsmem
      apply hnone
      simp [openSessionFilter, hid, hvis, hact]
    | some s' =>
      have hprops := List.find?_some hf
      simp only [openSessionFilter, Bool.and_eq_true, beq_iff_eq,
        decide_eq_true_eq] at hprops
      have hr : resolveOpenSession now b st = some s' := by
        simp [resolveOpenSession, htv, hf]
      refine ⟨by simp [collect, hr], sid, hbs, by simp [collect, hr, hprops.1.1]⟩
  · intro hnC
    have hr : resolveOpenSession now b st = none := by
      unfold resolveOpenSession
      cases htv : truthyStr b.sessionId with
      | none => rfl
      | some sid =>
        obtain ⟨hbs, hne⟩ := (truthyStr_eq_some_iff _ _).1 htv
        cases hf : st.sessions.find? (openSessionFilter now sid b.visitorId) with
        | none => exact hf
        | some s' =>
          exfalso
          have hprops := List.find?_some hf
          have hmem := List.mem_of_find?_eq_some hf
          simp only [openSessionFilter, Bool.and_eq_true, beq_iff_eq,
            decide_eq_true_eq] at hprops
          exact hnC ⟨sid, hbs, s', hmem, hprops.1.1, hprops.1.2, hprops.2⟩
    refine ⟨by simp [collect, hr], by simp [collect, hr], ?_⟩
    intro sid hbs hmem
    have h2 : (collect now fresh pvid geo b st).2 = fresh := by simp [collect, hr]
    rw [h2]
    exact fun heq => hfresh (heq ▸ hmem)

/-- Witness for `collect_session_stitching`: a stale session (last active
31 minutes ago) with the matching id and visitor id is not reused — a new
session is created and a different id is returned. -/
theorem collect_session_stitching_witness :
    (collect (31 * 60 * 1000) "s2" "pv2" geoEmpty
        { bodyA with sessionId := some "s1" } storeA).1.sessions.length =
      storeA.sessions.length + 1 ∧
    (collect (31 * 60 * 1000) "s2" "pv2" geoEmpty
        { bodyA with sessionId := some "s1" } storeA).2 = "s2" ∧
    (collect (31 * 60 * 1000) "s2" "pv2" geoEmpty
        { bodyA with sessionId := some "s1" } storeA).2 ≠ "s1" := by
  have h := (collect_session_stitching (31 * 60 * 1000) "s2" "pv2" geoEmpty
    { bodyA with sessionId := some "s1" } storeA
    (by decide) (by decide)).2 (by
      rintro ⟨sid, hbs, s, hsmem, hid, hvis, hact⟩
      simp only [bodyA, Option.some.injEq] at hbs
      subst hbs
      simp only [storeA, sessA, List.mem_singleton] at hsmem
      subst hsmem
      revert hact
      decide)
  exact ⟨h.1, h.2.1, h.2.2 "s1" rfl (by decide)⟩

/-! ## Theorems for claim C4 -/

/-- A maximum-timestamp scan returning `some v` found `v` in the scanned
list (or in the seed), and `v`'s timestamp dominates the list and the
seed. -/
theorem pickLatest_fold_some (l : List PageView) :
    ∀ (acc : Option PageView) (v : PageView), l.foldl pickLatest acc = some v →
      (v ∈ l ∨ acc = some v) ∧ (∀ w ∈ l, w.timestamp ≤ v.timestamp) ∧
      (∀ w, acc = some w → w.timestamp ≤ v.timestamp) := by
  induction l with
  | nil =>
    intro acc v h
    simp only [List.foldl_nil] at h
    exact ⟨Or.inr h, by simp, fun w hw => by
      rw [hw] at h; injection h with h; rw [h]⟩
  | cons x t ih =>
    intro acc v h
    rw [List.foldl_cons] at h
    obtain ⟨hmem, hall, hacc⟩ := ih (pickLatest acc x) v h
    refine ⟨?_, ?_, ?_⟩
    · rcases hmem with hv | hacc'
      · exact Or.inl (List.mem_cons_of_mem _ hv)
      · cases acc with
        | none =>
          simp only [pickLatest, Option.some.injEq] at hacc'
          exact Or.inl (hacc' ▸ List.mem_cons_self x t)
        | some w =>
          simp only [pickLatest] at hacc'
          by_cases hlt : w.timestamp < x.timestamp
          · rw [if_pos hlt] at hacc'
            injection hacc' with h2
            exact Or.inl (h2 ▸ List.mem_cons_self x t)
          · rw [if_neg hlt] at hacc'
            exact Or.inr hacc'
    · intro w hw
      rcases List.mem_cons.1 hw with rfl | hw'
      · cases acc with
        | none => exact hacc w (by simp [pickLatest])
        | some u =>
          by_cases hlt : u.timestamp < w.timestamp
          · exact hacc w (by simp [pickLatest, hlt])
          · exact le_trans (le_of_not_lt hlt) (hacc u (by simp [pickLatest, hlt]))
      · exact hall w hw'
    · intro w hw
      subst hw
      by_cases hlt : w.timestamp < x.timestamp
      · exact le_trans (le_of_lt hlt) (hacc x (by simp [pickLatest, hlt]))
      · exact hacc w (by simp [pickLatest, hlt])

/-- The located `latestPageView` belongs to the store, matches the
(session, path) pair, and carries the maximal timestamp among the matching
rows. -/
theorem latestPageView_some (pvs : List PageView) (sid p : String) (v : PageView)
    (h : latestPageView pvs sid p = some v) :
    v ∈ pvs ∧ v.sessionId = sid ∧ v.path = p ∧
      ∀ w ∈ pvs, w.sessionId = sid → w.path = p → w.timestamp ≤ v.timestamp := by
  obtain ⟨hmem, hall, -⟩ := pickLatest_fold_some _ _ _ h
  rcases hmem with hv | hv
  · have hv2 := List.mem_filter.1 hv
    have hprops : v.sessionId = sid ∧ v.path = p := by
      have := hv2.2
      simp only [Bool.and_eq_true, beq_iff_eq] at this
      exact this
    refine ⟨hv2.1, hprops.1, hprops.2, fun w hw hws hwp => ?_⟩
    exact hall w (List.mem_filter.2 ⟨hw, by simp [hws, hwp]⟩)
  · exact absurd hv (by simp)

/-- C4: a heartbeat supplying a scroll depth and a (non-empty) path
updates exactly the most recent page view of that (session, path) pair:
that view's scroll depth becomes the maximum of the incoming and the prior
stored value (so a stored value never decreases), its time-on-page becomes
now minus the view's own timestamp in whole seconds, every other field of
it and every other page-view row is untouched.  The closing conjunct runs
the claim's example: depths [10, 40, 25, 90] leave 90 stored. -/
theorem heartbeat_scroll_ratchet (now : Int) (sid p : String) (sd : Int) (st : Store)
    (hp : p ≠ "")
    (hnodup : (st.pageViews.map PageView.id).Nodup)
    (hsess : sid ∈ st.sessions.map Session.id) :
    (∀ v, latestPageView st.pageViews sid p = some v →
      (v ∈ st.pageViews ∧ v.sessionId = sid ∧ v.path = p ∧
        ∀ w ∈ st.pageViews, w.sessionId = sid → w.path = p →
          w.timestamp ≤ v.timestamp) ∧
      (∃ v' ∈ (heartbeat now sid (some sd) (some p) st).1.pageViews,
        v'.id = v.id ∧
        v'.scrollDepth = some (max sd (v.scrollDepth.getD 0)) ∧
        v'.timeOnPage = some (Int.fdiv (now - v.timestamp) 1000) ∧
        v'.sessionId = v.sessionId ∧ v'.path = v.path ∧ v'.timestamp = v.timestamp ∧
        v'.title = v.title ∧ v'.referrer = v.referrer) ∧
      (∀ prior, v.scrollDepth = some prior → prior ≤ max sd (v.scrollDepth.getD 0)) ∧
      (∀ w ∈ st.pageViews, w ≠ v →
        w ∈ (heartbeat now sid (some sd) (some p) st).1.pageViews)) ∧
    (feedDepths 0 "s1" "/a" [10, 40, 25, 90] storeA).pageViews.map PageView.scrollDepth =
      [some 90] := by
  constructor
  · intro v hv
    obtain ⟨s0, hf⟩ : ∃ s0, st.sessions.find? (fun s => s.id == sid) = some s0 := by
      cases hfind : st.sessions.find? (fun s => s.id == sid) with
      | none =>
        exfalso
        obtain ⟨s, hs, hsid⟩ := List.mem_map.1 hsess
        exact List.find?_eq_none.1 hfind s hs (by simp [hsid])
      | some s0 => exact ⟨s0, rfl⟩
    have htv : truthyStr (some p) = some p := by simp [truthyStr, hp]
    have hred : (heartbeat now sid (some sd) (some p) st).1.pageViews =
        st.pageViews.map (ratchetUpd now sd v) := by
      simp [heartbeat, hf, htv, hv]
    obtain ⟨hmem, hsid, hpath, hmax⟩ := latestPageView_some st.pageViews sid p v hv
    refine ⟨⟨hmem, hsid, hpath, hmax⟩, ?_, ?_, ?_⟩
    · refine ⟨ratchetUpd now sd v v, ?_, ?_⟩
      · rw [hred]; exact List.mem_map_of_mem _ hmem
      · simp [ratchetUpd]
    · intro prior hprior
      simp [hprior]
    · intro w hw hne
      have hidne : w.id ≠ v.id := fun hid =>
        hne (List.inj_on_of_nodup_map hnodup hw hmem hid)
      have : ratchetUpd now sd v w = w := by simp [ratchetUpd, hidne]
      rw [hred, ← this]
      exact List.mem_map_of_mem _ hw
  · decide

/-- Witness for `heartbeat_scroll_ratchet`, exercising the claim's example
sequence on the concrete store. -/
theorem heartbeat_scroll_ratchet_witness :
    (feedDepths 0 "s1" "/a" [10, 40, 25, 90] storeA).pageViews.map PageView.scrollDepth =
      [some 90] :=
  (heartbeat_scroll_ratchet 0 "s1" "/a" 10 storeA (by decide) (by decide) (by decide)).2

/-! ## Theorems for claim C2 -/

/-- C2, counterexample: it is not the case that every reported metric is
accompanied by a percentage-change key — the stats reply has no
`pagesPerSessionChange` key, so pages-per-session is reported without a
change. -/
theorem stats_pagesPerSession_missing_change :
    ¬ ∀ m ∈ ["visitors", "sessions", "pageViews", "avgDuration", "bounceRate",
        "pagesPerSession"], (m ++ "Change") ∈ statsDataKeys := by
  decide

/-- C2 (amended): for ranges `today`/`7d`/`30d` the comparison window is
the immediately preceding period of equal nominal length, and each of the
metrics unique visitors, total sessions, total page views, average
duration and bounce rate is accompanied by `pctChange` of its current
versus previous value — `(curr − prev)/prev × 100` rounded to one decimal,
with `prev = 0` yielding 100 when `curr > 0` and 0 when `curr = 0`.
Pages-per-session is reported without a change (see the counterexample). -/
theorem stats_percentage_changes (range : String) (now midnight : Int) (st : Store)
    (hr : range = "today" ∨ range = "7d" ∨ range = "30d") :
    ((statsWindow range now midnight).2.2 = (statsWindow range now midnight).1 ∧
      (statsWindow range now midnight).1 - (statsWindow range now midnight).2.1 =
        rangeLengthMs range) ∧
    (getStatsForRange range now midnight st =
      getStats
        (st.sessions.filter (fun s => (statsWindow range now midnight).1 ≤ s.startedAt))
        (st.sessions.filter (fun s => (statsWindow range now midnight).2.1 ≤ s.startedAt ∧
          s.startedAt < (statsWindow range now midnight).2.2))
        (st.pageViews.filter (fun v => (statsWindow range now midnight).1 ≤ v.timestamp)).length
        (st.pageViews.filter (fun v => (statsWindow range now midnight).2.1 ≤ v.timestamp ∧
          v.timestamp < (statsWindow range now midnight).2.2)).length) ∧
    (∀ cur prev : List Session, ∀ pv ppv : ℕ,
      (getStats cur prev pv ppv).visitorsChange =
        pctChange (uniqueVisitors cur) (uniqueVisitors prev) ∧
      (getStats cur prev pv ppv).sessionsChange =
        pctChange cur.length prev.length ∧
      (getStats cur prev pv ppv).pageViewsChange = pctChange pv ppv ∧
      (getStats cur prev pv ppv).avgDurationChange =
        pctChange (avgDurationOf cur) (avgDurationOf prev) ∧
      (getStats cur prev pv ppv).bounceRateChange =
        pctChange (bounceRateOf cur) (bounceRateOf prev)) ∧
    (∀ c : ℚ, pctChange c 0 = if 0 < c then 100 else 0) ∧
    (∀ c p : ℚ, p ≠ 0 → pctChange c p = round1 ((c - p) / p * 100)) ∧
    pctChange 0 0 = 0 ∧ pctChange 5 0 = 100 ∧ pctChange 50 100 = -50 := by
  have hnotall : range ≠ "all" := by
    rcases hr with rfl | rfl | rfl <;> decide
  refine ⟨?_, ?_, fun cur prev pv ppv => ⟨rfl, rfl, rfl, rfl, rfl⟩, ?_, ?_, ?_, ?_, ?_⟩
  · rcases hr with rfl | rfl | rfl
    · exact ⟨rfl, by show midnight - (midnight - 86400000) = 86400000; ring⟩
    · exact ⟨rfl, by show now - 7 * 86400000 - (now - 14 * 86400000) = 7 * 86400000; ring⟩
    · exact ⟨rfl, by show now - 30 * 86400000 - (now - 60 * 86400000) = 30 * 86400000; ring⟩
  · simp [getStatsForRange, hnotall]
  · intro c
    simp [pctChange]
  · intro c p hp
    simp [pctChange, hp]
  · norm_num [pctChange]
  · norm_num [pctChange]
  · norm_num [pctChange, round1, jsRound, round_eq]

/-- Witness for `stats_percentage_changes` at range `7d` on the concrete
store, projecting the convention test vectors. -/
theorem stats_percentage_changes_witness :
    pctChange 0 0 = 0 ∧ pctChange 5 0 = 100 ∧ pctChange 50 100 = -50 :=
  (stats_percentage_changes "7d" 0 0 storeA (Or.inr (Or.inl rfl))).2.2.2.2.2

/-! ## Map/Set lemmas for the grouping loops -/

theorem lookupKey_cons {β : Type} (kv : String × β) (m : List (String × β)) (k : String) :
    lookupKey (kv :: m) k = if kv.1 = k then some kv.2 else lookupKey m k := by
  unfold lookupKey
  by_cases h : kv.1 = k
  · rw [List.find?_cons_of_pos _ (by simp [h]), if_pos h]
    rfl
  · rw [List.find?_cons_of_neg _ (by simp [h]), if_neg h]

theorem upsert_lookup_self {β : Type} (k : String) (d : β) (f : β → β)
    (m : List (String × β)) :
    lookupKey (upsert k d f m) k = some (f ((lookupKey m k).getD d)) := by
  induction m with
  | nil => simp [upsert, lookupKey]
  | cons kv rest ih =>
    by_cases h : kv.1 = k
    · simp [upsert, h, lookupKey_cons]
    · simp [upsert, h, lookupKey_cons, ih]

theorem upsert_lookup_other {β : Type} (k k' : String) (hne : k' ≠ k) (d : β) (f : β → β)
    (m : List (String × β)) : lookupKey (upsert k d f m) k' = lookupKey m k' := by
  induction m with
  | nil => simp [upsert, lookupKey_cons, lookupKey, Ne.symm hne]
  | cons kv rest ih =>
    by_cases h : kv.1 = k
    · simp [upsert, h, lookupKey_cons, Ne.symm hne, ih]
    · simp [upsert, h, lookupKey_cons, ih]

theorem lookupKey_eq_none_iff {β : Type} (m : List (String × β)) (k : String) :
    lookupKey m k = none ↔ k ∉ m.map Prod.fst := by
  induction m with
  | nil => simp [lookupKey]
  | cons kv rest ih =>
    rw [lookupKey_cons]
    by_cases h : kv.1 = k
    · simp [h]
    · rw [if_neg h, ih, List.map_cons]
      simp only [List.mem_cons, not_or]
      constructor
      · intro hk
        exact ⟨fun he => h he.symm, hk⟩
      · exact fun hp => hp.2

theorem mem_lookupKey {β : Type} {m : List (String × β)} (hnd : (m.map Prod.fst).Nodup)
    {k : String} {b : β} (hmem : (k, b) ∈ m) : lookupKey m k = some b := by
  induction m with
  | nil => cases hmem
  | cons kv rest ih =>
    rw [lookupKey_cons]
    rcases List.mem_cons.1 hmem with rfl | h2
    · simp
    · have hk : kv.1 ≠ k := by
        intro heq
        have hkmem : k ∈ rest.map Prod.fst := by
          have := List.mem_map_of_mem Prod.fst h2
          simpa using this
        exact (List.nodup_cons.1 hnd).1 (heq ▸ hkmem)
      rw [if_neg hk]
      exact ih (List.nodup_cons.1 hnd).2 h2

theorem upsert_keys {β : Type} (k : String) (d : β) (f : β → β) (m : List (String × β)) :
    (upsert k d f m).map Prod.fst =
      if k ∈ m.map Prod.fst then m.map Prod.fst else m.map Prod.fst ++ [k] := by
  induction m with
  | nil => simp [upsert]
  | cons kv rest ih =>
    by_cases h : kv.1 = k
    · simp [upsert, h]
    · simp only [upsert, if_neg h, List.map_cons, ih, List.mem_cons]
      have : ¬ k = kv.1 := fun heq => h heq.symm
      by_cases hmem : k ∈ rest.map Prod.fst
      · simp [hmem, this]
      · simp [hmem, this]

theorem upsert_keys_nodup {β : Type} (k : String) (d : β) (f : β → β)
    (m : List (String × β)) (h : (m.map Prod.fst).Nodup) :
    ((upsert k d f m).map Prod.fst).Nodup := by
  rw [upsert_keys]
  by_cases hmem : k ∈ m.map Prod.fst
  · simpa [hmem] using h
  · rw [if_neg hmem, List.nodup_append]
    exact ⟨h, List.nodup_singleton k, by simp [hmem]⟩

theorem upsert_keys_mem {β : Type} (k k' : String) (d : β) (f : β → β)
    (m : List (String × β)) :
    (k' ∈ (upsert k d f m).map Prod.fst ↔ k' = k ∨ k' ∈ m.map Prod.fst) := by
  rw [upsert_keys]
  by_cases hmem : k ∈ m.map Prod.fst
  · rw [if_pos hmem]
    constructor
    · exact Or.inr
    · rintro (rfl | h)
      · exact hmem
      · exact h
  · rw [if_neg hmem]
    simp [List.mem_append, or_comm]

/-- Characterization of the grouping loop: after folding `rows` into map
`m` with an upsert of key `key r`, default `ini r` and mutation
`upd · r`, the entry at `k` is the fold of `upd` over the rows with key
`k`, seeded from the prior entry (or from `ini` of the first such row). -/
theorem groupFold_lookup {ρ β : Type} (key : ρ → String) (ini : ρ → β) (upd : β → ρ → β) :
    ∀ (rows : List ρ) (m : List (String × β)) (k : String),
      lookupKey (rows.foldl (fun acc r => upsert (key r) (ini r) (fun b => upd b r) acc) m) k =
        match lookupKey m k with
        | some b => some ((rows.filter (fun r => key r == k)).foldl upd b)
        | none =>
          match rows.filter (fun r => key r == k) with
          | [] => none
          | f0 :: fs => some ((f0 :: fs).foldl upd (ini f0)) := by
  intro rows
  induction rows with
  | nil =>
    intro m k
    cases h : lookupKey m k <;> simp [h]
  | cons r rest ih =>
    intro m k
    rw [List.foldl_cons, ih]
    by_cases hk : key r = k
    · subst hk
      rw [upsert_lookup_self, List.filter_cons_of_pos (by simp)]
      cases hm : lookupKey m (key r) with
      | some b => simp [hm]
      | none => simp [hm]
    · rw [upsert_lookup_other _ _ (fun h => hk h.symm),
        List.filter_cons_of_neg (by simp [hk])]

theorem groupFold_keys_nodup {ρ β : Type} (key : ρ → String) (ini : ρ → β)
    (upd : β → ρ → β) :
    ∀ (rows : List ρ) (m : List (String × β)), (m.map Prod.fst).Nodup →
      (((rows.foldl (fun acc r => upsert (key r) (ini r) (fun b => upd b r) acc) m)).map
        Prod.fst).Nodup := by
  intro rows
  induction rows with
  | nil => exact fun m h => h
  | cons r rest ih =>
    intro m h
    rw [List.foldl_cons]
    exact ih _ (upsert_keys_nodup _ _ _ _ h)

theorem groupFold_keys_mem {ρ β : Type} (key : ρ → String) (ini : ρ → β)
    (upd : β → ρ → β) :
    ∀ (rows : List ρ) (m : List (String × β)) (k : String),
      (k ∈ ((rows.foldl (fun acc r => upsert (key r) (ini r) (fun b => upd b r) acc) m)).map
          Prod.fst ↔ k ∈ m.map Prod.fst ∨ k ∈ rows.map key) := by
  intro rows
  induction rows with
  | nil => simp
  | cons r rest ih =>
    intro m k
    rw [List.foldl_cons, ih, upsert_keys_mem, List.map_cons, List.mem_cons]
    constructor
    · rintro ((rfl | h) | h)
      · exact Or.inr (Or.inl rfl)
      · exact Or.inl h
      · exact Or.inr (Or.inr h)
    · rintro (h | rfl | h)
      · exact Or.inl (Or.inr h)
      · exact Or.inl (Or.inl rfl)
      · exact Or.inr h

/-! ## Set lemmas -/

theorem setAdd_fold_nodup (xs : List String) : ∀ acc : List String, acc.Nodup →
    (xs.foldl setAdd acc).Nodup := by
  induction xs with
  | nil => exact fun acc h => h
  | cons x t ih =>
    intro acc h
    rw [List.foldl_cons]
    apply ih
    unfold setAdd
    by_cases hx : x ∈ acc
    · simpa [hx] using h
    · rw [if_neg hx, List.nodup_append]
      exact ⟨h, List.nodup_singleton x, by simp [hx]⟩

theorem setAdd_fold_mem (xs : List String) : ∀ (acc : List String) (y : String),
    (y ∈ xs.foldl setAdd acc ↔ y ∈ acc ∨ y ∈ xs) := by
  induction xs with
  | nil => simp
  | cons x t ih =>
    intro acc y
    rw [List.foldl_cons, ih]
    unfold setAdd
    by_cases hx : x ∈ acc
    · rw [if_pos hx]
      constructor
      · rintro (h | h)
        · exact Or.inl h
        · exact Or.inr (List.mem_cons_of_mem x h)
      · rintro (h | h)
        · exact Or.inl h
        · rcases List.mem_cons.1 h with rfl | h2
          · exact Or.inl hx
          · exact Or.inr h2
    · rw [if_neg hx]
      constructor
      · rintro (h | h)
        · rcases List.mem_append.1 h with h2 | h2
          · exact Or.inl h2
          · exact Or.inr (by simpa using Or.inl (List.mem_singleton.1 h2))
        · exact Or.inr (List.mem_cons_of_mem x h)
      · rintro (h | h)
        · exact Or.inl (List.mem_append.2 (Or.inl h))
        · rcases List.mem_cons.1 h with rfl | h2
          · exact Or.inl (List.mem_append.2 (Or.inr (List.mem_singleton.2 rfl)))
          · exact Or.inr h2

/-- Two duplicate-free lists with the same members have the same length. -/
theorem length_eq_of_nodup_of_mem_iff {α : Type} [DecidableEq α] {l1 l2 : List α}
    (h1 : l1.Nodup) (h2 : l2.Nodup) (h : ∀ x, x ∈ l1 ↔ x ∈ l2) : l1.length = l2.length := by
  have e : l1.toFinset = l2.toFinset := by
    ext x
    simp only [List.mem_toFinset]
    exact h x
  calc l1.length = l1.toFinset.card := (List.toFinset_card_of_nodup h1).symm
    _ = l2.toFinset.card := by rw [e]
    _ = l2.length := List.toFinset_card_of_nodup h2

theorem setAdd_fold_length_nil (xs : List String) :
    (xs.foldl setAdd []).length = xs.dedup.length := by
  refine length_eq_of_nodup_of_mem_iff (setAdd_fold_nodup xs [] (List.nodup_nil))
    (List.nodup_dedup xs) (fun y => ?_)
  rw [setAdd_fold_mem, List.mem_dedup]
  simp

/-! ## Per-path aggregation lemmas -/

theorem foldl_updAgg_views (fs : List PageView) : ∀ p : PageAgg,
    (fs.foldl updAgg p).views = p.views + fs.length := by
  induction fs with
  | nil => simp
  | cons v t ih =>
    intro p
    rw [List.foldl_cons, ih]
    simp only [updAgg, List.length_cons]
    omega

theorem foldl_updAgg_time (fs : List PageView) : ∀ p : PageAgg,
    (fs.foldl updAgg p).totalTime =
      p.totalTime + (fs.filterMap (fun v => truthyInt v.timeOnPage)).sum ∧
    (fs.foldl updAgg p).timeCount =
      p.timeCount + (fs.filterMap (fun v => truthyInt v.timeOnPage)).length := by
  induction fs with
  | nil => simp
  | cons v t ih =>
    intro p
    rw [List.foldl_cons]
    obtain ⟨h1, h2⟩ := ih (updAgg p v)
    rw [List.filterMap_cons]
    cases ht : truthyInt v.timeOnPage with
    | none =>
      constructor
      · rw [h1]
        simp [updAgg, ht]
      · rw [h2]
        simp [updAgg, ht]
    | some x =>
      constructor
      · rw [h1]
        simp only [updAgg, ht, List.sum_cons]
        ring
      · rw [h2]
        simp only [updAgg, ht, List.length_cons]
        omega

theorem foldl_updAgg_scroll (fs : List PageView) : ∀ p : PageAgg,
    (fs.foldl updAgg p).totalScroll =
      p.totalScroll + (fs.filterMap (fun v => truthyInt v.scrollDepth)).sum ∧
    (fs.foldl updAgg p).scrollCount =
      p.scrollCount + (fs.filterMap (fun v => truthyInt v.scrollDepth)).length := by
  induction fs with
  | nil => simp
  | cons v t ih =>
    intro p
    rw [List.foldl_cons]
    obtain ⟨h1, h2⟩ := ih (updAgg p v)
    rw [List.filterMap_cons]
    cases ht : truthyInt v.scrollDepth with
    | none =>
      constructor
      · rw [h1]
        simp [updAgg, ht]
      · rw [h2]
        simp [updAgg, ht]
    | some x =>
      constructor
      · rw [h1]
        simp only [updAgg, ht, List.sum_cons]
        ring
      · rw [h2]
        simp only [updAgg, ht, List.length_cons]
        omega

theorem foldl_updAgg_sessions (fs : List PageView) : ∀ p : PageAgg,
    (fs.foldl updAgg p).sessions = (fs.map PageView.sessionId).foldl setAdd p.sessions := by
  induction fs with
  | nil => simp
  | cons v t ih =>
    intro p
    rw [List.foldl_cons, ih, List.map_cons, List.foldl_cons]
    rfl

/-- Characterization of a `pageMap` entry: its counters are exactly the
spec-level per-path quantities. -/
theorem getTopPagesAgg_spec (views : List PageView) (k : String) (d : PageAgg)
    (h : lookupKey (getTopPagesAgg views) k = some d) :
    d.views = (pathViews views k).length ∧
    d.totalTime = (recordedTimes views k).sum ∧
    d.timeCount = (recordedTimes views k).length ∧
    d.totalScroll = (recordedScrolls views k).sum ∧
    d.scrollCount = (recordedScrolls views k).length ∧
    d.sessions.Nodup ∧
    (∀ x, x ∈ d.sessions ↔ x ∈ (pathViews views k).map PageView.sessionId) ∧
    d.sessions.length = (pathSessions views k).length ∧
    0 < (pathViews views k).length := by
  have hg := groupFold_lookup PageView.path initAgg updAgg views [] k
  have heq : getTopPagesAgg views =
      views.foldl (fun acc r => upsert r.path (initAgg r) (fun b => updAgg b r) acc) [] := rfl
  rw [heq, hg] at h
  simp only [lookupKey] at h
  cases hp : views.filter (fun v => v.path == k) with
  | nil =>
    rw [hp] at h
    cases h
  | cons f0 fs =>
    rw [hp] at h
    injection h with h
    subst h
    have hpv : pathViews views k = f0 :: fs := hp
    have hsess : ((f0 :: fs).foldl updAgg (initAgg f0)).sessions =
        ((f0 :: fs).map PageView.sessionId).foldl setAdd [] := by
      rw [foldl_updAgg_sessions]
      rfl
    refine ⟨?_, ?_, ?_, ?_, ?_, ?_, ?_, ?_, ?_⟩
    · rw [foldl_updAgg_views]
      simp [initAgg, hpv]
    · rw [(foldl_updAgg_time _ _).1]
      simp [initAgg, recordedTimes, hpv]
    · rw [(foldl_updAgg_time _ _).2]
      simp [initAgg, recordedTimes, hpv]
    · rw [(foldl_updAgg_scroll _ _).1]
      simp [initAgg, recordedScrolls, hpv]
    · rw [(foldl_updAgg_scroll _ _).2]
      simp [initAgg, recordedScrolls, hpv]
    · rw [hsess]
      exact setAdd_fold_nodup _ _ List.nodup_nil
    · intro x
      rw [hsess, setAdd_fold_mem, hpv]
      simp
    · rw [hsess, setAdd_fold_length_nil, pathSessions, hpv]
    · rw [hpv]
      simp

/-! ## Slice/sort plumbing for the top-pages view -/

theorem jsSlice_some {α : Type} (xs : List α) (n : Int) :
    jsSlice xs (some n) =
      if 0 ≤ n then xs.take n.toNat else xs.take (xs.length - (-n).toNat) := rfl

theorem jsSlice_sublist {α : Type} (xs : List α) (lim : Option Int) :
    (jsSlice xs lim).Sublist xs := by
  cases lim with
  | none => exact List.nil_sublist xs
  | some n =>
    rw [jsSlice_some]
    by_cases h : 0 ≤ n
    · rw [if_pos h]
      exact List.take_sublist _ _
    · rw [if_neg h]
      exact List.take_sublist _ _

theorem getTopPagesAgg_keys_nodup (views : List PageView) :
    ((getTopPagesAgg views).map Prod.fst).Nodup :=
  groupFold_keys_nodup PageView.path initAgg updAgg views [] (by simp)

theorem getTopPagesAgg_keys_mem (views : List PageView) (k : String) :
    k ∈ (getTopPagesAgg views).map Prod.fst ↔ k ∈ views.map PageView.path := by
  have h := groupFold_keys_mem PageView.path initAgg updAgg views [] k
  simpa using h

/-- Every reported top-pages row is `pageEntry` of its path's aggregate. -/
theorem getTopPages_mem_entry (views : List PageView) (qlimit : Option String)
    (pg : TopPage) (hmem : pg ∈ getTopPages views qlimit) :
    ∃ d, lookupKey (getTopPagesAgg views) pg.path = some d ∧
      pg = pageEntry views pg.path d := by
  have h1 : pg ∈ (getTopPagesAgg views).map (fun kv => pageEntry views kv.1 kv.2) := by
    have h2 := (jsSlice_sublist _ _).subset hmem
    exact ((List.perm_insertionSort _ _).mem_iff).1 h2
  obtain ⟨kv, hkv, hpg⟩ := List.mem_map.1 h1
  have hpath : pg.path = kv.1 := by
    rw [← hpg]
    rfl
  refine ⟨kv.2, ?_, ?_⟩
  · rw [hpath]
    exact mem_lookupKey (getTopPagesAgg_keys_nodup views) (by simpa using hkv)
  · rw [hpath, ← hpg]

/-! ## Theorems for claim C5 -/

/-- C5, counterexample: with three distinct sessions on `/a` of which one
bounced, the code reports `Math.round(100/3) = 33`, while the claimed
exact fraction-as-a-percentage is `100/3 ≠ 33`. -/
theorem topPages_bounce_rounding_counterexample :
    getTopPages cviews none = [tpA, tpB] ∧
    tpA.bounceRate = 33 ∧
    bouncedSessionsOf cviews "/a" = 1 ∧
    (pathSessions cviews "/a").length = 3 ∧
    ((1 : ℚ) / 3) * 100 ≠ (33 : ℚ) := by
  refine ⟨rfl, ?_, by decide, by decide, by norm_num⟩
  have hf : ((["s1", "s2", "s3"] : List String).filter
      (fun s => countViews cviews s == 1)).length = 1 := by decide
  simp only [tpA, pageEntry]
  rw [hf]
  norm_num [jsRound, round_eq]

/-- C5 (amended): each reported row's bounce rate is the fraction of its
path's distinct in-range sessions with exactly one in-range view anywhere,
as a percentage rounded to the nearest integer (`Math.round`); the list is
sorted descending by view count; a parsed non-negative limit truncates the
list, and an absent limit parameter defaults to 20. -/
theorem topPages_bounce_sorted_truncated (views : List PageView) (qlimit : Option String) :
    (∀ pg ∈ getTopPages views qlimit,
      pg.views = (pathViews views pg.path).length ∧
      pg.uniqueVisitors = (pathSessions views pg.path).length ∧
      pg.bounceRate = jsRound (((bouncedSessionsOf views pg.path : ℚ) /
        ((pathSessions views pg.path).length : ℚ)) * 100)) ∧
    List.Pairwise (fun a b : TopPage => b.views ≤ a.views) (getTopPages views qlimit) ∧
    (∀ n : Int, resolveLimit qlimit = some n → 0 ≤ n →
      (getTopPages views qlimit).length =
        min n.toNat ((views.map PageView.path).dedup.length)) ∧
    (qlimit = none → resolveLimit qlimit = some 20) := by
  refine ⟨?_, ?_, ?_, ?_⟩
  · intro pg hmem
    obtain ⟨d, hd, hpg⟩ := getTopPages_mem_entry views qlimit pg hmem
    obtain ⟨hv, -, -, -, -, hnd, hmemiff, hlen, hpos⟩ :=
      getTopPagesAgg_spec views pg.path d hd
    have hppos : 0 < (pathSessions views pg.path).length := by
      obtain ⟨v0, hv0⟩ := List.exists_mem_of_length_pos hpos
      refine List.length_pos_of_mem (a := v0.sessionId) ?_
      unfold pathSessions
      rw [List.mem_dedup]
      exact List.mem_map_of_mem _ hv0
    have hfl : (d.sessions.filter (fun s => countViews views s == 1)).length =
        bouncedSessionsOf views pg.path := by
      unfold bouncedSessionsOf
      refine length_eq_of_nodup_of_mem_iff (hnd.filter _)
        ((List.nodup_dedup _).filter _) (fun x => ?_)
      rw [List.mem_filter, List.mem_filter, hmemiff x]
      unfold pathSessions
      rw [List.mem_dedup]
    refine ⟨?_, ?_, ?_⟩
    · rw [hpg]
      exact hv
    · rw [hpg]
      exact hlen
    · rw [hpg]
      show (if 0 < d.sessions.length then
        jsRound ((((d.sessions.filter (fun s => countViews views s == 1)).length : ℚ) /
          (d.sessions.length : ℚ)) * 100) else 0) = _
      rw [if_pos (by rw [hlen]; exact hppos), hfl, hlen]
      rfl
  · haveI : IsTotal TopPage (fun a b : TopPage => b.views ≤ a.views) :=
      ⟨fun a b => le_total b.views a.views⟩
    haveI : IsTrans TopPage (fun a b : TopPage => b.views ≤ a.views) :=
      ⟨fun _ _ _ h1 h2 => le_trans h2 h1⟩
    exact List.Pairwise.sublist (jsSlice_sublist _ _)
      (List.sorted_insertionSort _ _)
  · intro n hn hnn
    have hsl : getTopPages views qlimit =
        (List.insertionSort (fun a b : TopPage => b.views ≤ a.views)
          ((getTopPagesAgg views).map (fun kv => pageEntry views kv.1 kv.2))).take n.toNat := by
      show jsSlice _ (resolveLimit qlimit) = _
      rw [hn, jsSlice_some, if_pos hnn]
    rw [hsl, List.length_take]
    congr 1
    calc (List.insertionSort (fun a b : TopPage => b.views ≤ a.views)
          ((getTopPagesAgg views).map (fun kv => pageEntry views kv.1 kv.2))).length
        = ((getTopPagesAgg views).map (fun kv => pageEntry views kv.1 kv.2)).length :=
          (List.perm_insertionSort _ _).length_eq
      _ = (getTopPagesAgg views).length := List.length_map _ _
      _ = ((getTopPagesAgg views).map Prod.fst).length := (List.length_map _ _).symm
      _ = (views.map PageView.path).dedup.length :=
          length_eq_of_nodup_of_mem_iff (getTopPagesAgg_keys_nodup views)
            (List.nodup_dedup _)
            (fun k => by rw [getTopPagesAgg_keys_mem, List.mem_dedup])
  · intro h
    rw [h]
    rfl

/-- Witness for `topPages_bounce_sorted_truncated` on the concrete views,
at the reported `/a` row. -/
theorem topPages_bounce_sorted_truncated_witness :
    tpA.views = (pathViews cviews tpA.path).length ∧
    tpA.uniqueVisitors = (pathSessions cviews tpA.path).length ∧
    tpA.bounceRate = jsRound (((bouncedSessionsOf cviews tpA.path : ℚ) /
      ((pathSessions cviews tpA.path).length : ℚ)) * 100) ∧
    resolveLimit none = some 20 := by
  have hmem : tpA ∈ getTopPages cviews none :=
    (show getTopPages cviews none = [tpA, tpB] from rfl) ▸ List.mem_cons_self tpA [tpB]
  obtain ⟨h1, h2, h3⟩ := (topPages_bounce_sorted_truncated cviews none).1 tpA hmem
  exact ⟨h1, h2, h3, (topPages_bounce_sorted_truncated cviews none).2.2.2 rfl⟩

/-! ## Theorems for claim C7 -/

/-- C7, counterexample: on `/a` of `tviews` one view recorded
`timeOnPage = 0` and one recorded 10.  The claimed mean over all views
with a recorded value is `(0 + 10)/2 = 5`, but the code's truthiness test
`if (v.timeOnPage)` drops the recorded 0, reporting `10`. -/
theorem topPages_zero_record_counterexample :
    getTopPages tviews none = [tpageA] ∧
    tpageA.avgTime = 10 ∧
    claimRecordedTimes tviews "/a" = [0, 10] ∧
    claimAvgTime tviews "/a" = 5 ∧
    (10 : ℚ) ≠ 5 := by
  refine ⟨rfl, ?_, by decide, ?_, by norm_num⟩
  · simp only [tpageA, pageEntry]
    norm_num [jsRound, round_eq]
  · have h : claimRecordedTimes tviews "/a" = [0, 10] := by decide
    rw [claimAvgTime, h]
    norm_num

/-- C7 (amended): each reported mean is taken over exactly the views of
the path whose recorded value is truthy — non-null *and* non-zero; a view
recording 0 is excluded from the mean (as is a view recording nothing). -/
theorem topPages_avg_over_truthy_recorded (views : List PageView) (qlimit : Option String) :
    ∀ pg ∈ getTopPages views qlimit,
      pg.avgTime = (if 0 < (recordedTimes views pg.path).length then
        jsRound (((recordedTimes views pg.path).sum : ℚ) /
          ((recordedTimes views pg.path).length : ℚ)) else 0) ∧
      pg.avgScroll = (if 0 < (recordedScrolls views pg.path).length then
        jsRound (((recordedScrolls views pg.path).sum : ℚ) /
          ((recordedScrolls views pg.path).length : ℚ)) else 0) ∧
    (∀ v ∈ pathViews views pg.path, truthyInt v.timeOnPage = none ↔
      (v.timeOnPage = none ∨ v.timeOnPage = some 0)) := by
  intro pg hmem
  obtain ⟨d, hd, hpg⟩ := getTopPages_mem_entry views qlimit pg hmem
  obtain ⟨-, hts, htc, hss, hsc, -, -, -, -⟩ := getTopPagesAgg_spec views pg.path d hd
  refine ⟨?_, ?_, ?_⟩
  · rw [hpg]
    show (if 0 < d.timeCount then jsRound ((d.totalTime : ℚ) / (d.timeCount : ℚ)) else 0) = _
    rw [htc, hts]
    rfl
  · rw [hpg]
    show (if 0 < d.scrollCount then jsRound ((d.totalScroll : ℚ) / (d.scrollCount : ℚ)) else 0) = _
    rw [hsc, hss]
    rfl
  · intro v _
    cases hv : v.timeOnPage with
    | none => simp [truthyInt]
    | some t =>
      by_cases ht : t = 0 <;> simp [truthyInt, ht]

/-- Witness for `topPages_avg_over_truthy_recorded` at the concrete
`/a` row of `tviews`. -/
theorem topPages_avg_over_truthy_recorded_witness :
    tpageA.avgTime = (if 0 < (recordedTimes tviews tpageA.path).length then
      jsRound (((recordedTimes tviews tpageA.path).sum : ℚ) /
        ((recordedTimes tviews tpageA.path).length : ℚ)) else 0) ∧
    tpageA.avgScroll = (if 0 < (recordedScrolls tviews tpageA.path).length then
      jsRound (((recordedScrolls tviews tpageA.path).sum : ℚ) /
        ((recordedScrolls tviews tpageA.path).length : ℚ)) else 0) ∧
    (∀ v ∈ pathViews tviews tpageA.path, truthyInt v.timeOnPage = none ↔
      (v.timeOnPage = none ∨ v.timeOnPage = some 0)) :=
  topPages_avg_over_truthy_recorded tviews none tpageA
    ((show getTopPages tviews none = [tpageA] from rfl) ▸ List.mem_singleton.2 rfl)

/-! ## Theorems for claim C10 -/

/-- C10, counterexample: the limit parameter `""` is present and parses to
`NaN`, yet the returned list is not empty — `q.limit || "20"` treats the
empty string as absent, so the default 20 applies to a present (but empty)
parameter as well. -/
theorem topPages_empty_limit_counterexample :
    parseIntJS "" = none ∧
    resolveLimit (some "") = some 20 ∧
    getTopPages cviews (some "") = getTopPages cviews none ∧
    (getTopPages cviews (some "")).length = 2 := by
  exact ⟨rfl, rfl, rfl, rfl⟩

/-- C10 (amended): a present *non-empty* limit parameter that parses to
`NaN` yields an empty page list (`slice(0, NaN)` keeps nothing); the
default of 20 applies when the parameter is absent or empty. -/
theorem topPages_nan_limit (views : List PageView) (s : String) (hs : s ≠ "")
    (hnan : parseIntJS s = none) :
    getTopPages views (some s) = [] ∧
    resolveLimit none = some 20 ∧ resolveLimit (some "") = some 20 := by
  have h1 : resolveLimit (some s) = none := by
    unfold resolveLimit
    rw [show truthyStr (some s) = some s by simp [truthyStr, hs]]
    exact hnan
  exact ⟨by show jsSlice _ (resolveLimit (some s)) = []; rw [h1]; rfl, rfl, rfl⟩

/-- Witness for `topPages_nan_limit` at the claim's example limit
`"abc"`. -/
theorem topPages_nan_limit_witness :
    getTopPages cviews (some "abc") = [] ∧
    resolveLimit none = some 20 ∧ resolveLimit (some "") = some 20 :=
  topPages_nan_limit cviews "abc" (by decide) (by decide)

/-! ## Lexicographic order on character lists

The series sort compares the emitted key strings; these lemmas relate
that order on the rendered decimal keys to the numeric order of the
underlying calendar components. -/

theorem lex_cons_iff {x y : Char} {u v : List Char} :
    (x :: u) < (y :: v) ↔ x < y ∨ (x = y ∧ u < v) := by
  show List.Lex (· < ·) (x :: u) (y :: v) ↔ _
  constructor
  · intro h
    cases h with
    | rel h => exact Or.inl h
    | cons h => exact Or.inr ⟨rfl, h⟩
  · rintro (h | ⟨rfl, h⟩)
    · exact List.Lex.rel h
    · exact List.Lex.cons h

theorem lex_nil_nil : ¬ (([] : List Char) < []) := by
  intro h
  exact List.Lex.not_nil_right _ _ h

/-- Comparing concatenations block-wise: with equal-length leading blocks,
the lexicographic order decides on the blocks first, then on the tails. -/
theorem lex_append_iff : ∀ (a b : List Char) (u v : List Char), a.length = b.length →
    ((a ++ u) < (b ++ v) ↔ (a < b ∨ (a = b ∧ u < v)))
  | [], [], u, v, _ => by
    simp only [List.nil_append]
    constructor
    · intro h
      exact Or.inr ⟨by trivial, h⟩
    · rintro (h | ⟨-, h⟩)
      · exact absurd h lex_nil_nil
      · exact h
  | [], _ :: _, _, _, h => by simp at h
  | _ :: _, [], _, _, h => by simp at h
  | x :: xs, y :: ys, u, v, h => by
    simp only [List.cons_append]
    rw [lex_cons_iff, lex_cons_iff,
      lex_append_iff xs ys u v (by simpa using h)]
    constructor
    · rintro (h1 | ⟨rfl, h2 | ⟨rfl, h3⟩⟩)
      · exact Or.inl (Or.inl h1)
      · exact Or.inl (Or.inr ⟨rfl, h2⟩)
      · exact Or.inr ⟨rfl, h3⟩
    · rintro ((h1 | ⟨rfl, h2⟩) | ⟨heq, h3⟩)
      · exact Or.inl h1
      · exact Or.inr ⟨rfl, Or.inl h2⟩
      · injection heq with h4 h5
        subst h4
        subst h5
        exact Or.inr ⟨rfl, Or.inr ⟨rfl, h3⟩⟩

/-! ## Positional-number arithmetic -/

theorem enc2_lt (B a1 b1 a2 b2 : ℕ) (h1 : b1 < B) (h2 : b2 < B) :
    (a1 * B + b1 < a2 * B + b2 ↔ (a1 < a2 ∨ (a1 = a2 ∧ b1 < b2))) := by
  constructor
  · intro h
    rcases lt_trichotomy a1 a2 with hc | hc | hc
    · exact Or.inl hc
    · subst hc
      exact Or.inr ⟨rfl, by omega⟩
    · exfalso
      have hle : (a2 + 1) * B ≤ a1 * B := Nat.mul_le_mul_right B hc
      have he : (a2 + 1) * B = a2 * B + B := by ring
      omega
  · rintro (hc | ⟨rfl, hb⟩)
    · have hle : (a1 + 1) * B ≤ a2 * B := Nat.mul_le_mul_right B hc
      have he : (a1 + 1) * B = a1 * B + B := by ring
      omega
    · omega

theorem enc2_eq (B a1 b1 a2 b2 : ℕ) (h1 : b1 < B) (h2 : b2 < B) :
    (a1 * B + b1 = a2 * B + b2 ↔ (a1 = a2 ∧ b1 = b2)) := by
  constructor
  · intro h
    rcases lt_trichotomy a1 a2 with hc | hc | hc
    · exact absurd (h ▸ (enc2_lt B a1 b1 a2 b2 h1 h2).2 (Or.inl hc)) (lt_irrefl _)
    · subst hc
      exact ⟨rfl, by omega⟩
    · exact absurd (h ▸ (enc2_lt B a2 b2 a1 b1 h2 h1).2 (Or.inl hc)) (by omega)
  · rintro ⟨rfl, rfl⟩
    rfl

/-! ## Decimal digit rendering -/

theorem digitChar_lt_iff : ∀ a < 10, ∀ b < 10,
    (Nat.digitChar a < Nat.digitChar b ↔ a < b) := by decide

theorem digitChar_inj : ∀ a < 10, ∀ b < 10,
    (Nat.digitChar a = Nat.digitChar b ↔ a = b) := by decide

theorem padDigits_length : ∀ (k n : ℕ), (padDigits k n).length = k
  | 0, _ => rfl
  | k + 1, n => by simp [padDigits, padDigits_length k]

theorem padDigits_lt_iff : ∀ (k m n : ℕ), m < 10 ^ k → n < 10 ^ k →
    ((padDigits k m < padDigits k n) ↔ m < n)
  | 0, m, n, hm, hn => by
    simp only [pow_zero, Nat.lt_one_iff] at hm hn
    subst hm
    subst hn
    simp only [padDigits]
    exact ⟨fun h => absurd h lex_nil_nil, fun h => absurd h (lt_irrefl 0)⟩
  | k + 1, m, n, hm, hn => by
    have hB : 0 < 10 ^ k := Nat.pos_pow_of_pos k (by omega)
    have hq1 : m / 10 ^ k < 10 := by
      rw [Nat.div_lt_iff_lt_mul hB]
      calc m < 10 ^ (k + 1) := hm
        _ = 10 * 10 ^ k := by ring
    have hq2 : n / 10 ^ k < 10 := by
      rw [Nat.div_lt_iff_lt_mul hB]
      calc n < 10 ^ (k + 1) := hn
        _ = 10 * 10 ^ k := by ring
    have hr1 : m % 10 ^ k < 10 ^ k := Nat.mod_lt m hB
    have hr2 : n % 10 ^ k < 10 ^ k := Nat.mod_lt n hB
    simp only [padDigits]
    rw [lex_cons_iff, digitChar_lt_iff _ hq1 _ hq2, digitChar_inj _ hq1 _ hq2,
      padDigits_lt_iff k _ _ hr1 hr2]
    have hm' : m / 10 ^ k * 10 ^ k + m % 10 ^ k = m := Nat.div_add_mod' m (10 ^ k)
    have hn' : n / 10 ^ k * 10 ^ k + n % 10 ^ k = n := Nat.div_add_mod' n (10 ^ k)
    conv_rhs => rw [← hm', ← hn']
    exact (enc2_lt (10 ^ k) _ _ _ _ hr1 hr2).symm

theorem padDigits_inj : ∀ (k m n : ℕ), m < 10 ^ k → n < 10 ^ k →
    ((padDigits k m = padDigits k n) ↔ m = n)
  | 0, m, n, hm, hn => by
    simp only [pow_zero, Nat.lt_one_iff] at hm hn
    subst hm
    subst hn
    simp [padDigits]
  | k + 1, m, n, hm, hn => by
    have hB : 0 < 10 ^ k := Nat.pos_pow_of_pos k (by omega)
    have hq1 : m / 10 ^ k < 10 := by
      rw [Nat.div_lt_iff_lt_mul hB]
      calc m < 10 ^ (k + 1) := hm
        _ = 10 * 10 ^ k := by ring
    have hq2 : n / 10 ^ k < 10 := by
      rw [Nat.div_lt_iff_lt_mul hB]
      calc n < 10 ^ (k + 1) := hn
        _ = 10 * 10 ^ k := by ring
    have hr1 : m % 10 ^ k < 10 ^ k := Nat.mod_lt m hB
    have hr2 : n % 10 ^ k < 10 ^ k := Nat.mod_lt n hB
    simp only [padDigits, List.cons.injEq]
    rw [digitChar_inj _ hq1 _ hq2, padDigits_inj k _ _ hr1 hr2]
    have hm' : m / 10 ^ k * 10 ^ k + m % 10 ^ k = m := Nat.div_add_mod' m (10 ^ k)
    have hn' : n / 10 ^ k * 10 ^ k + n % 10 ^ k = n := Nat.div_add_mod' n (10 ^ k)
    conv_rhs => rw [← hm', ← hn']
    exact (enc2_eq (10 ^ k) _ _ _ _ hr1 hr2).symm

/-- `Nat.toDigitsCore` with enough fuel renders the big-endian digits. -/
theorem toDigitsCore_eq : ∀ (fuel n : ℕ) (ds : List Char), n < fuel →
    Nat.toDigitsCore 10 fuel n ds = unpadDigits n ++ ds
  | 0, n, ds, h => absurd h (by omega)
  | fuel + 1, n, ds, h => by
    rw [Nat.toDigitsCore]
    by_cases h0 : n / 10 = 0
    · have hn : n < 10 := by
        rcases Nat.lt_or_ge n 10 with h2 | h2
        · exact h2
        · exact absurd h0 (by
            have : 1 ≤ n / 10 := (Nat.le_div_iff_mul_le (by omega)).2 (by omega)
            omega)
      simp only [h0, if_pos]
      unfold unpadDigits
      rw [dif_pos hn, Nat.mod_eq_of_lt hn]
      rfl
    · have h10 : 10 ≤ n := by
        rcases Nat.lt_or_ge n 10 with h2 | h2
        · exact absurd (Nat.div_eq_of_lt h2) h0
        · exact h2
      have hlt : n / 10 < fuel := by
        have := Nat.div_lt_self (by omega : 0 < n) (by omega : 1 < 10)
        omega
      rw [if_neg h0, toDigitsCore_eq fuel (n / 10) _ hlt]
      conv_rhs => unfold unpadDigits
      rw [dif_neg (by omega : ¬ n < 10), List.append_assoc]
      rfl

/-- `Nat.repr` renders exactly the big-endian digit characters. -/
theorem repr_data (n : ℕ) : (Nat.repr n).data = unpadDigits n := by
  show ((Nat.toDigits 10 n).asString).data = _
  unfold Nat.toDigits
  rw [toDigitsCore_eq (n + 1) n [] (by omega), List.append_nil]
  rfl

/-- Peeling the least-significant digit off a padded rendering. -/
theorem padDigits_snoc : ∀ (k n : ℕ), n < 10 ^ (k + 1) →
    padDigits (k + 1) n = padDigits k (n / 10) ++ [Nat.digitChar (n % 10)]
  | 0, n, h => by
    simp only [padDigits, pow_zero, Nat.div_one, List.nil_append]
    rw [Nat.mod_eq_of_lt (by simpa using h)]
  | k + 1, n, h => by
    have hB : (10 : ℕ) ^ (k + 2) = 10 * 10 ^ (k + 1) := by ring
    have hm : n % 10 ^ (k + 1) < 10 ^ (k + 1) :=
      Nat.mod_lt n (Nat.pos_pow_of_pos _ (by omega))
    show Nat.digitChar (n / 10 ^ (k + 1)) :: padDigits (k + 1) (n % 10 ^ (k + 1)) = _
    rw [padDigits_snoc k (n % 10 ^ (k + 1)) hm]
    show _ = (Nat.digitChar (n / 10 / 10 ^ k) :: padDigits k (n / 10 % 10 ^ k)) ++ _
    have e1 : n / 10 / 10 ^ k = n / 10 ^ (k + 1) := by
      rw [Nat.div_div_eq_div_mul]
      congr 1
      ring
    have e2 : n % 10 ^ (k + 1) / 10 = n / 10 % 10 ^ k := by
      have : (10 : ℕ) ^ (k + 1) = 10 * 10 ^ k := by ring
      rw [this, Nat.mod_mul_right_div_self]
    have e3 : n % 10 ^ (k + 1) % 10 = n % 10 :=
      Nat.mod_mod_of_dvd n (dvd_pow_self 10 (by omega))
    rw [e1, e2, e3]
    rfl

/-- A `k+1`-digit number renders unpadded exactly as its padded form. -/
theorem unpadDigits_eq_padDigits : ∀ (k n : ℕ), 10 ^ k ≤ n → n < 10 ^ (k + 1) →
    unpadDigits n = padDigits (k + 1) n
  | 0, n, h1, h2 => by
    unfold unpadDigits
    rw [dif_pos (by simpa using h2)]
    simp [padDigits]
  | k + 1, n, h1, h2 => by
    have h10 : 10 ≤ n := le_trans (by
      calc (10 : ℕ) = 10 ^ 1 := by ring
        _ ≤ 10 ^ (k + 1) := Nat.pow_le_pow_right (by omega) (by omega)) h1
    unfold unpadDigits
    rw [dif_neg (by omega : ¬ n < 10)]
    have hd1 : 10 ^ k ≤ n / 10 := by
      rw [Nat.le_div_iff_mul_le (by omega : (0:ℕ) < 10)]
      calc 10 ^ k * 10 = 10 ^ (k + 1) := by ring
        _ ≤ n := h1
    have hd2 : n / 10 < 10 ^ (k + 1) := by
      rw [Nat.div_lt_iff_lt_mul (by omega : (0:ℕ) < 10)]
      calc n < 10 ^ (k + 2) := h2
        _ = 10 ^ (k + 1) * 10 := by ring
    rw [unpadDigits_eq_padDigits k (n / 10) hd1 hd2,
      ← padDigits_snoc (k + 1) n h2]

/-- A two-digit-bounded number renders via `pad2` as its 2-padded digit
characters. -/
theorem pad2_data (n : ℕ) (h : n < 100) : (pad2 n).data = padDigits 2 n := by
  by_cases h10 : n < 10
  · have hd : (Nat.repr n).data = [Nat.digitChar n] := by
      rw [repr_data]
      unfold unpadDigits
      rw [dif_pos h10]
    have hl : (Nat.repr n).length < 2 := by
      show (Nat.repr n).data.length < 2
      rw [hd]
      simp
    unfold pad2 padStart2
    rw [if_pos hl, String.data_append, hd]
    show '0' :: [Nat.digitChar n] = _
    simp only [padDigits, pow_one, pow_zero, Nat.div_one]
    rw [Nat.div_eq_of_lt h10, Nat.mod_eq_of_lt h10]
    rfl
  · have hd : (Nat.repr n).data = padDigits 2 n := by
      rw [repr_data]
      exact unpadDigits_eq_padDigits 1 n (by simpa using Nat.le_of_not_lt h10)
        (by simpa using h)
    have hl : ¬ (Nat.repr n).length < 2 := by
      show ¬ (Nat.repr n).data.length < 2
      rw [hd, padDigits_length]
      omega
    unfold pad2 padStart2
    rw [if_neg hl]
    exact hd

/-- A four-digit year renders as its 4-padded digit characters. -/
theorem repr_year_data (y : ℕ) (h1 : 1000 ≤ y) (h2 : y ≤ 9999) :
    (Nat.repr y).data = padDigits 4 y := by
  rw [repr_data]
  exact unpadDigits_eq_padDigits 3 y (by norm_num; omega) (by norm_num; omega)

/-! ## The bucket keys are lexicographically faithful to the calendar -/

theorem lex_sep {x : Char} {u v : List Char} : ((x :: u) < (x :: v)) ↔ u < v := by
  rw [lex_cons_iff]
  simp [lt_irrefl]

theorem append_eq_append_iff_len {a b u v : List Char} (h : a.length = b.length) :
    (a ++ u = b ++ v) ↔ (a = b ∧ u = v) :=
  ⟨fun he => List.append_inj he h, fun ⟨e1, e2⟩ => by rw [e1, e2]⟩

/-- The character content of a day key under the component bounds. -/
theorem dayKey_data (c : Clock) (t : Int) (hb : keyBounds c t) :
    (dayKey c t).data = padDigits 4 (c.year t) ++
      ('-' :: (padDigits 2 (c.month t + 1) ++ ('-' :: padDigits 2 (c.day t)))) := by
  unfold dayKey
  simp only [String.data_append]
  rw [repr_year_data _ hb.1 hb.2.1, pad2_data _ hb.2.2.1, pad2_data _ hb.2.2.2.1]
  simp [List.append_assoc]

theorem dayKey_data_length (c : Clock) (t : Int) (hb : keyBounds c t) :
    (dayKey c t).data.length = 10 := by
  rw [dayKey_data c t hb]
  simp [padDigits_length]

/-- Day keys compare (as strings) exactly as their numeric encodings. -/
theorem dayKey_cmp (c : Clock) (t1 t2 : Int) (hb1 : keyBounds c t1)
    (hb2 : keyBounds c t2) :
    (((dayKey c t1).data < (dayKey c t2).data) ↔
      encKey c Granularity.day t1 < encKey c Granularity.day t2) ∧
    (((dayKey c t1).data = (dayKey c t2).data) ↔
      encKey c Granularity.day t1 = encKey c Granularity.day t2) := by
  have p4 : (10 : ℕ) ^ 4 = 10000 := by norm_num
  have p2 : (10 : ℕ) ^ 2 = 100 := by norm_num
  obtain ⟨ha1, hb1', hm1, hd1, hh1⟩ := hb1
  obtain ⟨ha2, hb2', hm2, hd2, hh2⟩ := hb2
  have hy1 : c.year t1 < 10 ^ 4 := by omega
  have hy2 : c.year t2 < 10 ^ 4 := by omega
  have hm1' : c.month t1 + 1 < 10 ^ 2 := by omega
  have hm2' : c.month t2 + 1 < 10 ^ 2 := by omega
  have hd1' : c.day t1 < 10 ^ 2 := by omega
  have hd2' : c.day t2 < 10 ^ 2 := by omega
  rw [dayKey_data c t1 ⟨ha1, hb1', hm1, hd1, hh1⟩,
    dayKey_data c t2 ⟨ha2, hb2', hm2, hd2, hh2⟩]
  simp only [encKey]
  constructor
  · rw [lex_append_iff _ _ _ _ (by rw [padDigits_length, padDigits_length]),
      padDigits_lt_iff 4 _ _ hy1 hy2, padDigits_inj 4 _ _ hy1 hy2,
      lex_sep,
      lex_append_iff _ _ _ _ (by rw [padDigits_length, padDigits_length]),
      padDigits_lt_iff 2 _ _ hm1' hm2', padDigits_inj 2 _ _ hm1' hm2',
      lex_sep,
      padDigits_lt_iff 2 _ _ hd1' hd2',
      enc2_lt 100 _ _ _ _ (by omega) (by omega),
      enc2_lt 100 _ _ _ _ (by omega) (by omega),
      enc2_eq 100 _ _ _ _ (by omega) (by omega)]
    tauto
  · rw [append_eq_append_iff_len (by rw [padDigits_length, padDigits_length]),
      padDigits_inj 4 _ _ hy1 hy2, List.cons.injEq,
      append_eq_append_iff_len (by rw [padDigits_length, padDigits_length]),
      padDigits_inj 2 _ _ hm1' hm2', List.cons.injEq,
      padDigits_inj 2 _ _ hd1' hd2',
      enc2_eq 100 _ _ _ _ (by omega) (by omega),
      enc2_eq 100 _ _ _ _ (by omega) (by omega)]
    tauto

/-- The character content of an hour key under the component bounds. -/
theorem hourKey_data (c : Clock) (t : Int) (hb : keyBounds c t) :
    (hourKey c t).data = (dayKey c t).data ++
      ('T' :: (padDigits 2 (c.hour t) ++ (':' :: '0' :: '0' :: []))) := by
  unfold hourKey
  rw [String.data_append, String.data_append, String.data_append,
    pad2_data _ hb.2.2.2.2]
  simp [List.append_assoc]

/-- Hour keys compare (as strings) exactly as their numeric encodings. -/
theorem hourKey_lt_iff (c : Clock) (t1 t2 : Int) (hb1 : keyBounds c t1)
    (hb2 : keyBounds c t2) :
    ((hourKey c t1).data < (hourKey c t2).data) ↔
      encKey c Granularity.hour t1 < encKey c Granularity.hour t2 := by
  have p2 : (10 : ℕ) ^ 2 = 100 := by norm_num
  have hh1 : c.hour t1 < 10 ^ 2 := by have := hb1.2.2.2.2; omega
  have hh2 : c.hour t2 < 10 ^ 2 := by have := hb2.2.2.2.2; omega
  rw [hourKey_data c t1 hb1, hourKey_data c t2 hb2]
  simp only [encKey]
  rw [lex_append_iff _ _ _ _
      (by rw [dayKey_data_length c t1 hb1, dayKey_data_length c t2 hb2]),
    lex_sep,
    lex_append_iff _ _ _ _ (by rw [padDigits_length, padDigits_length]),
    padDigits_lt_iff 2 _ _ hh1 hh2,
    (dayKey_cmp c t1 t2 hb1 hb2).1, (dayKey_cmp c t1 t2 hb1 hb2).2,
    enc2_lt 100 _ _ _ _ (by omega) (by omega)]
  simp only [encKey]
  have hnl : ¬ ((':' :: '0' :: '0' :: []) < (':' :: '0' :: '0' :: [])) := lt_irrefl _
  constructor
  · rintro (h | ⟨he, h2 | ⟨-, h3⟩⟩)
    · exact Or.inl h
    · exact Or.inr ⟨he, h2⟩
    · exact absurd h3 hnl
  · rintro (h | ⟨he, h2⟩)
    · exact Or.inl h
    · exact Or.inr ⟨he, Or.inl h2⟩

/-- The bucket key order is the chronological order of the truncated
timestamps (their numeric encodings), at either granularity. -/
theorem bucketKey_lt_iff (c : Clock) (g : Granularity) (t1 t2 : Int)
    (hb1 : keyBounds c t1) (hb2 : keyBounds c t2) :
    ((bucketKey c g t1).data < (bucketKey c g t2).data) ↔
      encKey c g t1 < encKey c g t2 := by
  cases g with
  | hour => exact hourKey_lt_iff c t1 t2 hb1 hb2
  | day => exact (dayKey_cmp c t1 t2 hb1 hb2).1

/-! ## Bucketing lemmas -/

theorem foldl_updBucket_views (fs : List PageView) : ∀ b : BucketData,
    (fs.foldl updBucket b).views = b.views + fs.length := by
  induction fs with
  | nil => simp
  | cons v t ih =>
    intro b
    rw [List.foldl_cons, ih]
    simp only [updBucket, List.length_cons]
    omega

theorem foldl_updBucket_sessions (fs : List PageView) : ∀ b : BucketData,
    (fs.foldl updBucket b).sessions =
      (fs.map PageView.sessionId).foldl setAdd b.sessions := by
  induction fs with
  | nil => simp
  | cons v t ih =>
    intro b
    rw [List.foldl_cons, ih, List.map_cons, List.foldl_cons]
    rfl

/-- Characterization of one bucket: its view count is the number of
in-scope rows with that key, its session set counts their distinct
session ids, and at least one such row exists. -/
theorem timeSeries_bucket_spec (c : Clock) (g : Granularity) (rows : List PageView)
    (k : String) (b : BucketData)
    (h : lookupKey (rows.foldl (bucketStep c g) []) k = some b) :
    b.views = (rows.filter (fun v => bucketKey c g v.timestamp == k)).length ∧
    b.sessions.length = ((rows.filter (fun v => bucketKey c g v.timestamp == k)).map
      PageView.sessionId).dedup.length ∧
    0 < (rows.filter (fun v => bucketKey c g v.timestamp == k)).length := by
  have hg := groupFold_lookup (fun v : PageView => bucketKey c g v.timestamp)
    (fun _ => (⟨0, []⟩ : BucketData)) updBucket rows [] k
  have heq : rows.foldl (bucketStep c g) [] =
      rows.foldl (fun acc r => upsert (bucketKey c g r.timestamp) (⟨0, []⟩ : BucketData)
        (fun b => updBucket b r) acc) [] := rfl
  rw [heq, hg] at h
  simp only [lookupKey] at h
  cases hp : rows.filter (fun v => bucketKey c g v.timestamp == k) with
  | nil =>
    rw [hp] at h
    cases h
  | cons f0 fs =>
    rw [hp] at h
    injection h with h
    subst h
    refine ⟨?_, ?_, by simp⟩
    · rw [foldl_updBucket_views]
      simp
    · rw [foldl_updBucket_sessions]
      exact setAdd_fold_length_nil _

theorem timeSeries_keys_nodup (c : Clock) (g : Granularity) (rows : List PageView) :
    ((rows.foldl (bucketStep c g) []).map Prod.fst).Nodup :=
  groupFold_keys_nodup (fun v : PageView => bucketKey c g v.timestamp)
    (fun _ => (⟨0, []⟩ : BucketData)) updBucket rows [] (by simp)

theorem string_data_inj {s t : String} (h : s.data = t.data) : s = t := by
  cases s
  cases t
  exact congrArg String.mk h

/-! ## Theorem for claim C6 -/

/-- C6: the time-series view buckets by hour for range `today` and by
calendar day otherwise, with `all` capped to the trailing 90 days; every
emitted bucket carries the view count and distinct-session count of the
in-range views rendering to its key, and is non-empty (sparse output);
the buckets are emitted in strictly ascending key order, which is
chronological: every event of an earlier bucket strictly precedes every
event of a later bucket.  The hypotheses state what the runtime calendar
guarantees: components within their printable widths, and truncation
monotone in time.  The final conjunct runs the claim's example — views at
10:05, 10:55, 11:02 with range `today` produce exactly the buckets 10:00
(2 views) and 11:00 (1 view). -/
theorem time_series_bucketing (c : Clock) (g : Granularity) (since : Int)
    (pvs : List PageView)
    (hb : ∀ v ∈ pvs, keyBounds c v.timestamp)
    (hm : ∀ v ∈ pvs, ∀ w ∈ pvs, v.timestamp ≤ w.timestamp →
      encKey c g v.timestamp ≤ encKey c g w.timestamp) :
    (∀ now midnight : Int,
      tsParams "today" now midnight = (midnight, Granularity.hour) ∧
      (∀ r : String, r ≠ "today" → (tsParams r now midnight).2 = Granularity.day) ∧
      tsParams "all" now midnight = (now - 90 * 86400000, Granularity.day)) ∧
    (∀ pt ∈ getTimeSeries c g since pvs,
      pt.views = ((inRangeViews since pvs).filter
        (fun v => bucketKey c g v.timestamp == pt.time)).length ∧
      pt.visitors = (((inRangeViews since pvs).filter
        (fun v => bucketKey c g v.timestamp == pt.time)).map
          PageView.sessionId).dedup.length ∧
      0 < pt.views) ∧
    List.Pairwise (fun a b : SeriesPoint => a.time.data < b.time.data)
      (getTimeSeries c g since pvs) ∧
    List.Pairwise (fun a b : SeriesPoint =>
      ∀ v ∈ inRangeViews since pvs, ∀ w ∈ inRangeViews since pvs,
        bucketKey c g v.timestamp = a.time → bucketKey c g w.timestamp = b.time →
        v.timestamp < w.timestamp)
      (getTimeSeries c g since pvs) ∧
    getTimeSeries clockJune Granularity.hour 0 examplePvs =
      [⟨"2025-06-15T10:00", 2, 2⟩, ⟨"2025-06-15T11:00", 1, 1⟩] := by
  have hperm : List.Perm
      (List.insertionSort (fun a b : PageView => a.timestamp ≤ b.timestamp)
        (inRangeViews since pvs))
      (inRangeViews since pvs) := List.perm_insertionSort _ _
  have hmem_entry : ∀ pt ∈ getTimeSeries c g since pvs,
      ∃ kv ∈ (List.insertionSort (fun a b : PageView => a.timestamp ≤ b.timestamp)
          (inRangeViews since pvs)).foldl (bucketStep c g) [],
        pt = (⟨kv.1, kv.2.views, kv.2.sessions.length⟩ : SeriesPoint) := by
    intro pt hpt
    have h1 := ((List.perm_insertionSort seriesLe _).mem_iff).1 hpt
    obtain ⟨kv, hkv, he⟩ := List.mem_map.1 h1
    exact ⟨kv, hkv, he.symm⟩
  haveI i1 : IsTotal SeriesPoint seriesLe := ⟨fun a b => le_total a.time.data b.time.data⟩
  haveI i2 : IsTrans SeriesPoint seriesLe := ⟨fun a b c h1 h2 => le_trans h1 h2⟩
  have hsorted : List.Pairwise seriesLe (getTimeSeries c g since pvs) :=
    List.sorted_insertionSort seriesLe _
  have htimesnd : ((getTimeSeries c g since pvs).map (fun pt => pt.time)).Nodup := by
    have hp2 : List.Perm (getTimeSeries c g since pvs)
        (((List.insertionSort (fun a b : PageView => a.timestamp ≤ b.timestamp)
          (inRangeViews since pvs)).foldl (bucketStep c g) []).map
            (fun kv => (⟨kv.1, kv.2.views, kv.2.sessions.length⟩ : SeriesPoint))) :=
      List.perm_insertionSort seriesLe _
    rw [(hp2.map (fun pt => pt.time)).nodup_iff, List.map_map]
    exact timeSeries_keys_nodup c g _
  have hpairne : List.Pairwise (fun a b : SeriesPoint => a.time ≠ b.time)
      (getTimeSeries c g since pvs) :=
    (List.pairwise_map.1 htimesnd)
  have hstrict : List.Pairwise (fun a b : SeriesPoint => a.time.data < b.time.data)
      (getTimeSeries c g since pvs) := by
    refine (hsorted.and hpairne).imp ?_
    intro a b hab
    exact lt_of_le_of_ne hab.1 (fun hdeq => hab.2 (string_data_inj hdeq))
  refine ⟨?_, ?_, hstrict, ?_, by decide⟩
  · intro now midnight
    refine ⟨rfl, ?_, rfl⟩
    intro r hr
    unfold tsParams
    split_ifs with h1 h2 h3
    · exact absurd h1 hr
    · rfl
    · rfl
    · rfl
  · intro pt hpt
    obtain ⟨kv, hkv, he⟩ := hmem_entry pt hpt
    have hlk : lookupKey ((List.insertionSort
        (fun a b : PageView => a.timestamp ≤ b.timestamp)
        (inRangeViews since pvs)).foldl (bucketStep c g) []) kv.1 = some kv.2 :=
      mem_lookupKey (timeSeries_keys_nodup c g _) hkv
    obtain ⟨hviews, hsess, hpos⟩ := timeSeries_bucket_spec c g _ kv.1 kv.2 hlk
    have hfperm := hperm.filter (fun v => bucketKey c g v.timestamp == kv.1)
    have hlen : ((List.insertionSort (fun a b : PageView => a.timestamp ≤ b.timestamp)
        (inRangeViews since pvs)).filter
          (fun v => bucketKey c g v.timestamp == kv.1)).length =
        ((inRangeViews since pvs).filter
          (fun v => bucketKey c g v.timestamp == kv.1)).length := hfperm.length_eq
    have hdlen : (((List.insertionSort (fun a b : PageView => a.timestamp ≤ b.timestamp)
        (inRangeViews since pvs)).filter
          (fun v => bucketKey c g v.timestamp == kv.1)).map
            PageView.sessionId).dedup.length =
        (((inRangeViews since pvs).filter
          (fun v => bucketKey c g v.timestamp == kv.1)).map
            PageView.sessionId).dedup.length :=
      ((hfperm.map PageView.sessionId).dedup).length_eq
    subst he
    refine ⟨hviews.trans hlen, hsess.trans hdlen, ?_⟩
    show 0 < kv.2.views
    omega
  · refine hstrict.imp ?_
    intro a b hab v hv w hw hkv hkw
    have hvp : v ∈ pvs := (List.mem_filter.1 hv).1
    have hwp : w ∈ pvs := (List.mem_filter.1 hw).1
    by_contra hcon
    have hle : w.timestamp ≤ v.timestamp := by omega
    have henc : encKey c g w.timestamp ≤ encKey c g v.timestamp := hm w hwp v hvp hle
    have hlt : (bucketKey c g v.timestamp).data < (bucketKey c g w.timestamp).data := by
      rw [hkv, hkw]
      exact hab
    have := (bucketKey_lt_iff c g v.timestamp w.timestamp (hb v hvp) (hb w hwp)).1 hlt
    omega

/-- Witness for `time_series_bucketing` at the concrete clock and the
claim's example views, discharging the calendar hypotheses. -/
theorem time_series_bucketing_witness :
    getTimeSeries clockJune Granularity.hour 0 examplePvs =
      [⟨"2025-06-15T10:00", 2, 2⟩, ⟨"2025-06-15T11:00", 1, 1⟩] :=
  (time_series_bucketing clockJune Granularity.hour 0 examplePvs
    (by decide) (by decide)).2.2.2.2

end Analytics
